import Mathlib

/-!
# Shallow embedding of the radar entity store and output pipeline

This file embeds, in Lean 4, the parts of the repository that the verified
claims are about:

* `Entity` (src/unnamed/part_003, `Entity.js`): the tracked entity record,
  its position update and distance computations;
* `Tracker` (src/lib/EntityTracker.js, class `EntityTracker`): the entity
  map, the spatial grid index, the distance cache, the observer position and
  the performance counters, together with the operations `addEntity`,
  `removeEntity`, `updateEntityPosition`, `setPlayerPosition`,
  `getEntitiesInRadius`, `getStats` and `performEmergencyCleanup`;
* `FileOutputManager` (src/unnamed/part_004): the atomic write / retry /
  backoff state machine, with the file-system outcome of each write attempt
  supplied by an explicit oracle list.

Modelling conventions:

* JS numbers are modelled by `ℚ` (exact arithmetic); timestamps from
  `Date.now()` are modelled by an explicit `now : ℕ` argument threaded into
  the operations that read the clock.
* JS `Map` and `Set` are modelled by insertion-ordered association lists /
  lists without duplicates, since iteration order of JS maps and sets is
  insertion order and the code iterates over both.
* Distances: the source computes `Math.sqrt` of the squared coordinate
  differences and then only ever *compares* the results (`<= radius`, and the
  `distA - distB` sort comparator).  Real square roots are not computable, so
  the embedding carries the *squared* distances everywhere and performs the
  monotonically equivalent comparisons: `sqrt dsq <= r ↔ 0 ≤ r ∧ dsq ≤ r·r`,
  and `sqrt a ≤ sqrt b ↔ a ≤ b` for the sort comparator.  Cache entries hold
  squared distances under exactly the keys the source uses.
* A JS position object with a missing or non-numeric component is modelled by
  `RawPos` with `Option ℚ` components (`none` = missing/non-numeric, which
  behaves as `NaN` under arithmetic).  `Math.floor(NaN)` is `NaN`, so grid
  keys (`GridKey`) have `Option ℤ` components, `none` modelling the string
  component `"NaN"`.  Two `"NaN,NaN,NaN"` strings are equal as map keys, which
  matches `none = none`.
-/

namespace Radar

/-- A fully known position `{x, y, z}` in raw TERA coordinate units. -/
structure Pos where
  x : ℚ
  y : ℚ
  z : ℚ
deriving DecidableEq, Repr

/-- A raw position argument as it arrives from a packet: each component may be
missing or non-numeric (`none`). -/
structure RawPos where
  x : Option ℚ := none
  y : Option ℚ := none
  z : Option ℚ := none
deriving DecidableEq, Repr

/-- Spatial grid key, the string `"gx,gy,gz"` of `EntityTracker.getGridKey`;
a `none` component models the string `"NaN"` (obtained when the position
component is missing/non-numeric). -/
structure GridKey where
  gx : Option ℤ
  gy : Option ℤ
  gz : Option ℤ
deriving DecidableEq, Repr

/-- Observer-position hash (`EntityTracker.hashPosition`): the position with
each component rounded to tenths; the string `"x,y,z"` is injective in the
rounded values, so the triple of numerators of tenths is a faithful key. -/
structure PosHash where
  hx : ℤ
  hy : ℤ
  hz : ℤ
deriving DecidableEq, Repr

/-- A distance-cache key.  The source uses the strings
`` `${gameId}_${playerPosHash}` `` (metric distance, `getCachedDistance`) and
`` `raw_${gameId}_${playerPosHash}` `` (raw TERA-unit distance,
`getCachedRawDistance`); `hash` is `none` when `lastPlayerPosHash` is `null`
(the string `"null"`).  Distinct constructor/argument combinations produce
distinct strings (decimal numerals contain no `_` and `"raw"` is not a
numeral), so this inductive is a faithful model of the string keys. -/
inductive CacheKey where
  | meters (gameId : ℕ) (hash : Option PosHash)
  | raw (gameId : ℕ) (hash : Option PosHash)
deriving DecidableEq, Repr

/-- The tracked entity record (`Entity.js` constructor).  The classification
fields `type`/`isFriendly` and their heuristics are omitted: no verified claim
mentions them and they influence nothing below.  `cls` stands for the JS field
`class` (a Lean keyword). -/
structure Entity where
  gameId : ℕ
  name : String
  position : Pos
  hp : Option ℚ
  maxHp : Option ℚ
  level : Option ℚ
  cls : Option String
  lastUpdate : ℕ
deriving DecidableEq, Repr

/-- Raw entity data from a packet (the `entityData` argument of
`EntityTracker.addEntity` / `rawData` of the `Entity` constructor), with
every field optional. -/
structure EntityData where
  gameId : Option ℕ := none
  position : Option RawPos := none
  hp : Option ℚ := none
  maxHp : Option ℚ := none
  name : Option String := none
  level : Option ℚ := none
  cls : Option String := none
deriving DecidableEq, Repr

/-! ## JS `Map` / `Set` as insertion-ordered lists -/

/-- JS `Map.get`: first (and, for genuine JS maps, only) binding of the key. -/
def mapGet {K V : Type} [DecidableEq K] (k : K) : List (K × V) → Option V
  | [] => none
  | p :: rest => if p.1 = k then some p.2 else mapGet k rest

/-- JS `Map.set`: overwrite in place if the key is bound, else append (JS maps
keep the original insertion position on overwrite). -/
def mapSet {K V : Type} [DecidableEq K] (k : K) (v : V) : List (K × V) → List (K × V)
  | [] => [(k, v)]
  | p :: rest => if p.1 = k then (k, v) :: rest else p :: mapSet k v rest

/-- JS `Map.delete` / `Set.delete`: drop the binding of the key.  JS map keys are
unique, so dropping every binding coincides with dropping the one binding. -/
def mapDelete {K V : Type} [DecidableEq K] (k : K) (l : List (K × V)) : List (K × V) :=
  l.filter (fun p => !(p.1 = k : Bool))

/-- JS `Set.add`: append if absent (JS sets iterate in insertion order). -/
def setAdd {α : Type} [DecidableEq α] (a : α) (s : List α) : List α :=
  if a ∈ s then s else s ++ [a]

/-- JS `Set.delete` on an id set. -/
def setDelete {α : Type} [DecidableEq α] (a : α) (s : List α) : List α :=
  s.filter (fun b => !(b = a : Bool))

/-! ## Units and distances (`Entity.js`) -/

/-- Source `Entity.TERA_UNITS_PER_METER`: 16.49 raw units per meter. -/
def TERA_UNITS_PER_METER : ℚ := 1649 / 100

/-- Source `Entity.metersToTeraUnits`. -/
def metersToTeraUnits (meters : ℚ) : ℚ := meters * TERA_UNITS_PER_METER

/-- Squared Euclidean distance between two positions in raw units; the square
of what `Entity.calculateRawDistanceFrom` returns. -/
def distSq (p q : Pos) : ℚ :=
  (p.x - q.x) * (p.x - q.x) + (p.y - q.y) * (p.y - q.y) + (p.z - q.z) * (p.z - q.z)

/-- Square of the metric distance `Entity.calculateDistanceFrom` returns
(raw distance divided by the unit factor). -/
def meterDistSq (p q : Pos) : ℚ :=
  distSq p q / (TERA_UNITS_PER_METER * TERA_UNITS_PER_METER)

/-- Predicate `sqrt dsq ≤ bound`, expressed on the squared distance: a nonnegative
square root is `≤ bound` iff `bound` is nonnegative and `dsq ≤ bound ^ 2`. -/
def sqrtLe (dsq bound : ℚ) : Bool :=
  decide (0 ≤ bound) && decide (dsq ≤ bound * bound)

/-- Rational equality as a `Bool` on the normalized numerator/denominator
pair (used in concrete statements; equivalent to `=` on `ℚ`). -/
def qeq (a b : ℚ) : Bool :=
  decide (a.num = b.num) && decide (a.den = b.den)

/-- JS `Math.round (q)` as JS computes it on reals: round half toward `+∞`. -/
def jsRound (q : ℚ) : ℤ := ⌊q + 1 / 2⌋

/-- Source `EntityTracker.hashPosition`: each component times ten, rounded
(`Math.round (v * 10) / 10`; we keep the integer numerator of tenths). -/
def hashPosition (p : Pos) : PosHash :=
  ⟨jsRound (p.x * 10), jsRound (p.y * 10), jsRound (p.z * 10)⟩

/-! ## Entity record operations (`Entity.js`) -/

/-- JS truthiness helper for `rawData.f || null`: `0`/`""` collapse to
`null`. -/
def orNull (q : Option ℚ) : Option ℚ :=
  match q with
  | some v => if v = 0 then none else some v
  | none => none

/-- Same for string fields. -/
def orNullStr (s : Option String) : Option String :=
  match s with
  | some v => if v = "" then none else some v
  | none => none

/-- The `Entity` constructor: position defaults to the concrete point
`(0,0,0)` (not absent), `name` defaults to `"Unknown"`, numeric fields go
through `|| null`. -/
def Entity.new (gameId : ℕ) (rawData : EntityData) (now : ℕ) : Entity where
  gameId := gameId
  name := (orNullStr rawData.name).getD "Unknown"
  position := ⟨0, 0, 0⟩
  hp := orNull rawData.hp
  maxHp := orNull rawData.maxHp
  level := orNull rawData.level
  cls := orNullStr rawData.cls
  lastUpdate := now

/-- Source `Entity.updatePosition`: only an argument with all three components
numeric changes the stored position (and refreshes `lastUpdate`); anything
else is ignored. -/
def Entity.updatePosition (e : Entity) (newPosition : Option RawPos) (now : ℕ) : Entity :=
  match newPosition with
  | some rp =>
    match rp.x, rp.y, rp.z with
    | some x, some y, some z => { e with position := ⟨x, y, z⟩, lastUpdate := now }
    | _, _, _ => e
  | none => e

/-- Source `Entity.updateHealth`: set whichever of `hp`/`maxHp` is numeric; always
refresh `lastUpdate`. -/
def Entity.updateHealth (e : Entity) (hp maxHp : Option ℚ) (now : ℕ) : Entity :=
  let e := match hp with | some h => { e with hp := some h } | none => e
  let e := match maxHp with | some h => { e with maxHp := some h } | none => e
  { e with lastUpdate := now }

/-! ## Tracker state (`EntityTracker` constructor) -/

/-- The whole `EntityTracker` state.  The wall-clock bookkeeping fields
(`lastCleanup`, `lastUpdateTime`, `averageUpdateTime`, `maxUpdateTime`) and
the constant byte-size estimates of `getMemoryUsage` are omitted: they are
real-time measurements that no claim mentions.  The cache stores *squared*
distances (see the header comment). -/
structure Tracker where
  entities : List (ℕ × Entity)
  playerPosition : Option Pos
  radarRadius : ℚ
  radarRadiusTeraUnits : ℚ
  spatialGrid : List (GridKey × List ℕ)
  gridSize : ℚ
  distanceCache : List (CacheKey × ℚ)
  lastPlayerPosHash : Option PosHash
  maxEntities : ℕ
  entityUpdates : ℕ
  distanceCalculations : ℕ
  spatialQueries : ℕ
  cleanupOperations : ℕ
deriving DecidableEq, Repr

/-- The `EntityTracker` constructor: radius given in meters, converted once to
raw units; grid cell size is half the radius but at least 25 m worth of raw
units; the population ceiling is 1000. -/
def Tracker.new (radarRadius : ℚ) : Tracker :=
  let radarRadiusTeraUnits := metersToTeraUnits radarRadius
  { entities := []
    playerPosition := none
    radarRadius := radarRadius
    radarRadiusTeraUnits := radarRadiusTeraUnits
    spatialGrid := []
    gridSize := max (radarRadiusTeraUnits / 2) (metersToTeraUnits 25)
    distanceCache := []
    lastPlayerPosHash := none
    maxEntities := 1000
    entityUpdates := 0
    distanceCalculations := 0
    spatialQueries := 0
    cleanupOperations := 0 }

/-! ## Spatial indexing (`EntityTracker`, "SPATIAL INDEXING METHODS") -/

/-- Source `EntityTracker.getGridKey` on a stored (fully known) position. -/
def getGridKey (gridSize : ℚ) (p : Pos) : GridKey :=
  ⟨some ⌊p.x / gridSize⌋, some ⌊p.y / gridSize⌋, some ⌊p.z / gridSize⌋⟩

/-- Source `EntityTracker.getGridKey` on a raw packet position: a missing or
non-numeric component divides and floors to `NaN` (`none`). -/
def getGridKeyRaw (gridSize : ℚ) (p : RawPos) : GridKey :=
  ⟨p.x.map (fun v => ⌊v / gridSize⌋),
   p.y.map (fun v => ⌊v / gridSize⌋),
   p.z.map (fun v => ⌊v / gridSize⌋)⟩

/-- Source `EntityTracker.addToSpatialIndex` for a precomputed key. -/
def addToSpatialIndex (t : Tracker) (gameId : ℕ) (key : GridKey) : Tracker :=
  let cell := (mapGet key t.spatialGrid).getD []
  { t with spatialGrid := mapSet key (setAdd gameId cell) t.spatialGrid }

/-- Source `EntityTracker.removeFromSpatialIndex` for a precomputed key: delete the
id from the cell and drop the cell once empty. -/
def removeFromSpatialIndex (t : Tracker) (gameId : ℕ) (key : GridKey) : Tracker :=
  match mapGet key t.spatialGrid with
  | some cell =>
    let cell := setDelete gameId cell
    if cell.isEmpty then
      { t with spatialGrid := mapDelete key t.spatialGrid }
    else
      { t with spatialGrid := mapSet key cell t.spatialGrid }
  | none => t

/-- Source `EntityTracker.updateSpatialIndex`: remove under the old (stored)
position if any, then add under the new (raw) position if any — note that the
new position is indexed *as given in the packet*, even when it is malformed
and was rejected by `Entity.updatePosition`. -/
def updateSpatialIndex (t : Tracker) (gameId : ℕ) (oldPosition : Option Pos)
    (newPosition : Option RawPos) : Tracker :=
  let t := match oldPosition with
    | some p => removeFromSpatialIndex t gameId (getGridKey t.gridSize p)
    | none => t
  match newPosition with
  | some rp => addToSpatialIndex t gameId (getGridKeyRaw t.gridSize rp)
  | none => t

/-- Offsets `-gridRadius .. gridRadius` (empty when `gridRadius < 0`, matching
the `for` loop bounds). -/
def offsetRange (gridRadius : ℤ) : List ℤ :=
  (List.range (2 * gridRadius + 1).toNat).map (fun i => -gridRadius + i)

/-- Source `EntityTracker.getSpatialCandidates`: union (insertion-ordered, without
duplicates) of the id sets of every grid cell within `⌈radius / gridSize⌉`
cells of the observer's cell along each axis. -/
def getSpatialCandidates (t : Tracker) (center : Pos) (radius : ℚ) : List ℕ :=
  let gridRadius : ℤ := ⌈radius / t.gridSize⌉
  let cx := ⌊center.x / t.gridSize⌋
  let cy := ⌊center.y / t.gridSize⌋
  let cz := ⌊center.z / t.gridSize⌋
  (offsetRange gridRadius).foldl (fun acc dx =>
    (offsetRange gridRadius).foldl (fun acc dy =>
      (offsetRange gridRadius).foldl (fun acc dz =>
        match mapGet ⟨some (cx + dx), some (cy + dy), some (cz + dz)⟩ t.spatialGrid with
        | some cell => cell.foldl (fun acc gameId => setAdd gameId acc) acc
        | none => acc) acc) acc) []

/-! ## Distance caching (`EntityTracker`, "DISTANCE CACHING METHODS") -/

/-- Source `EntityTracker.getCachedRawDistance` (squared): look the squared raw
distance up under `` `raw_${gameId}_${lastPlayerPosHash}` ``, computing and
caching it on a miss; `none` models the `Infinity` returned for an unknown
entity. -/
def getCachedRawDistanceSq (t : Tracker) (gameId : ℕ) (playerPosition : Pos) :
    Option ℚ × Tracker :=
  match mapGet gameId t.entities with
  | none => (none, t)
  | some e =>
    let key := CacheKey.raw gameId t.lastPlayerPosHash
    match mapGet key t.distanceCache with
    | some d => (some d, t)
    | none =>
      let d := distSq e.position playerPosition
      (some d,
        { t with distanceCache := mapSet key d t.distanceCache
                 distanceCalculations := t.distanceCalculations + 1 })

/-- Source `EntityTracker.getCachedDistance` (squared, metric): same protocol under
`` `${gameId}_${lastPlayerPosHash}` ``, caching the squared distance in
meters. -/
def getCachedDistanceSq (t : Tracker) (gameId : ℕ) (playerPosition : Pos) :
    Option ℚ × Tracker :=
  match mapGet gameId t.entities with
  | none => (none, t)
  | some e =>
    let key := CacheKey.meters gameId t.lastPlayerPosHash
    match mapGet key t.distanceCache with
    | some d => (some d, t)
    | none =>
      let d := meterDistSq e.position playerPosition
      (some d,
        { t with distanceCache := mapSet key d t.distanceCache
                 distanceCalculations := t.distanceCalculations + 1 })

/-- Source `EntityTracker.isEntityInRadius`: compare the (cached) raw distance with
the radius in raw units. -/
def isEntityInRadius (t : Tracker) (entity : Entity) (playerPosition : Pos)
    (radiusTeraUnits : ℚ) : Bool × Tracker :=
  match getCachedRawDistanceSq t entity.gameId playerPosition with
  | (some dsq, t) => (sqrtLe dsq radiusTeraUnits, t)
  | (none, t) => (false, t)

/-- Does this cache key start with the string `` `${gameId}_` ``?  Metric keys
`` `${g}_${hash}` `` do exactly when `g = gameId` (decimal numerals are
prefix-free once followed by `_`); raw keys `` `raw_${g}_${hash}` `` start
with the letter `r`, never with a digit, so they *never* match. -/
def keyStartsWithGameId (gameId : ℕ) : CacheKey → Bool
  | CacheKey.meters g _ => g = gameId
  | CacheKey.raw _ _ => false

/-- Source `EntityTracker.invalidateDistanceCache`: delete every cache entry whose
key starts with `` `${gameId}_` `` — which, per `keyStartsWithGameId`, removes
the metric entries of the entity but leaves all its `raw_…` entries behind. -/
def invalidateDistanceCache (t : Tracker) (gameId : ℕ) : Tracker :=
  { t with distanceCache :=
      t.distanceCache.filter (fun p => !keyStartsWithGameId gameId p.1) }

/-! ## Store operations (`EntityTracker`) -/

/-- Source `EntityTracker.setPlayerPosition`: only a fully numeric position is
accepted; the stored position, the bucketed hash and the (wholesale-cleared)
distance cache change only when the bucketed hash actually differs. -/
def setPlayerPosition (t : Tracker) (position : Option RawPos) : Tracker :=
  match position with
  | some rp =>
    match rp.x, rp.y, rp.z with
    | some x, some y, some z =>
      let newPosHash := hashPosition ⟨x, y, z⟩
      if t.lastPlayerPosHash ≠ some newPosHash then
        { t with playerPosition := some ⟨x, y, z⟩
                 lastPlayerPosHash := some newPosHash
                 distanceCache := [] }
      else t
    | _, _, _ => t
  | none => t

/-- Source `EntityTracker.removeEntity`: drop the spatial-index membership (the
stored `entity.position` is always a truthy object), apply
`invalidateDistanceCache`, and report whether the map held the id. -/
def removeEntity (t : Tracker) (gameId : ℕ) : Bool × Tracker :=
  let t := match mapGet gameId t.entities with
    | some e => removeFromSpatialIndex t gameId (getGridKey t.gridSize e.position)
    | none => t
  let t := invalidateDistanceCache t gameId
  ((mapGet gameId t.entities).isSome, { t with entities := mapDelete gameId t.entities })

/-- Stable insertion sort: insert `a` after every element `b` with `lt b a`
(so elements comparing equal keep their input order, like the — stable — JS
`Array.prototype.sort`). -/
def insertStableBy {α : Type} (lt : α → α → Bool) (a : α) : List α → List α
  | [] => [a]
  | b :: bs => if lt b a then b :: insertStableBy lt a bs else a :: b :: bs

/-- Stable sort driven by `insertStableBy`; with a consistent comparator it
computes the same ordering as the stable JS sort. -/
def sortStableBy {α : Type} (lt : α → α → Bool) : List α → List α
  | [] => []
  | a :: as => insertStableBy lt a (sortStableBy lt as)

/-- Source `EntityTracker.performEmergencyCleanup`: stably sort the entries by
`lastUpdate` ascending and `removeEntity` the first
`Math.floor(maxEntities * 0.1)` of them (exactly `maxEntities / 10` for the
multiples of 10 used here; 1000 · 0.1 rounds to 100.0 in binary floating
point). -/
def performEmergencyCleanup (t : Tracker) : Tracker :=
  let sorted := sortStableBy (fun a b => a.2.lastUpdate < b.2.lastUpdate) t.entities
  let entitiesToRemove := t.maxEntities / 10
  let victims := (sorted.take entitiesToRemove).map Prod.fst
  let t := victims.foldl (fun t gameId => (removeEntity t gameId).2) t
  { t with cleanupOperations := t.cleanupOperations + 1 }

/-- Source `EntityTracker.addEntity`: reject data without an id; run the emergency
cleanup when the ceiling is hit by a new id; then either merge into the
existing record (relocating the index entry whenever a position field is
present, even a malformed one) or create a fresh record; finally invalidate
the metric distance-cache entries and count the update. -/
def addEntity (t : Tracker) (entityData : EntityData) (now : ℕ) : Option Entity × Tracker :=
  match entityData.gameId with
  | none => (none, t)
  | some gameId =>
    let t := if t.entities.length ≥ t.maxEntities ∧ (mapGet gameId t.entities).isNone
      then performEmergencyCleanup t else t
    match mapGet gameId t.entities with
    | some e0 =>
      let oldPosition := e0.position
      let (e, t) := match entityData.position with
        | some rp =>
          (e0.updatePosition (some rp) now,
           updateSpatialIndex t gameId (some oldPosition) (some rp))
        | none => (e0, t)
      let e := if entityData.hp.isSome ∨ entityData.maxHp.isSome
        then e.updateHealth entityData.hp entityData.maxHp now else e
      let e := match orNullStr entityData.name with
        | some s => { e with name := s } | none => e
      let e := match orNull entityData.level with
        | some l => { e with level := some l } | none => e
      let e := match orNullStr entityData.cls with
        | some c => { e with cls := some c } | none => e
      let t := { t with entities := mapSet gameId e t.entities }
      let t := invalidateDistanceCache t gameId
      (some e, { t with entityUpdates := t.entityUpdates + 1 })
    | none =>
      let e := Entity.new gameId entityData now
      let (e, t) := match entityData.position with
        | some rp =>
          (e.updatePosition (some rp) now,
           addToSpatialIndex t gameId (getGridKeyRaw t.gridSize rp))
        | none => (e, t)
      let t := { t with entities := mapSet gameId e t.entities }
      let t := invalidateDistanceCache t gameId
      (some e, { t with entityUpdates := t.entityUpdates + 1 })

/-- Source `EntityTracker.updateEntityPosition`: update the record (validating the
position) but relocate the index entry *unconditionally* from the old stored
position to the raw new one; then invalidate the metric cache entries. -/
def updateEntityPosition (t : Tracker) (gameId : ℕ) (position : Option RawPos)
    (now : ℕ) : Bool × Tracker :=
  match mapGet gameId t.entities with
  | some e =>
    let oldPosition := e.position
    let e := e.updatePosition position now
    let t := { t with entities := mapSet gameId e t.entities }
    let t := updateSpatialIndex t gameId (some oldPosition) position
    let t := invalidateDistanceCache t gameId
    (true, t)
  | none => (false, t)

/-- Comparator key order for the query sort (`distA - distB` on the values of
`getCachedDistance`): `none` models the `Infinity` fallback, sorting last. -/
def distLt : Option ℚ → Option ℚ → Bool
  | some a, some b => a < b
  | some _, none => true
  | none, _ => false

/-- One step of the query's candidate filter: look the candidate id up and
keep its record when the (cached) raw distance is within the radius. -/
def radiusFilterStep (playerPosition : Pos) (acc : List Entity × Tracker)
    (gameId : ℕ) : List Entity × Tracker :=
  match mapGet gameId acc.2.entities with
  | none => acc
  | some e =>
    match isEntityInRadius acc.2 e playerPosition acc.2.radarRadiusTeraUnits with
    | (true, t) => (acc.1 ++ [e], t)
    | (false, t) => (acc.1, t)

/-- One step of the sort's memoization: pair the entity with its (cached)
metric distance, the value the `distA - distB` comparator consumes. -/
def distKeyStep (playerPosition : Pos) (acc : List (Option ℚ × Entity) × Tracker)
    (e : Entity) : List (Option ℚ × Entity) × Tracker :=
  match getCachedDistanceSq acc.2 e.gameId playerPosition with
  | (d, t) => (acc.1 ++ [(d, e)], t)

/-- Body of the query once an observer position is known: collect the spatial
candidates, filter them by (cached) raw distance ≤ radius, then sort by the
memoized metric distance.  `getCachedDistance` runs only inside the sort
comparator, and JS never invokes the comparator on a 0- or 1-element array,
so those results are returned as they are, with no metric caching; on longer
results every element is compared at least once, so each kept entity's
metric distance is computed (on its first comparison) and cached — modelled
as the `distKeyStep` pass in list order followed by the stable sort. -/
def getEntitiesInRadiusFrom (t : Tracker) (playerPosition : Pos) : List Entity × Tracker :=
  let candidateEntities := getSpatialCandidates t playerPosition t.radarRadiusTeraUnits
  match candidateEntities.foldl (radiusFilterStep playerPosition) ([], t) with
  | (entitiesInRadius, t) =>
    if entitiesInRadius.length ≤ 1 then (entitiesInRadius, t)
    else
      match entitiesInRadius.foldl (distKeyStep playerPosition) ([], t) with
      | (keyed, t) =>
        ((sortStableBy (fun a b => distLt a.1 b.1) keyed).map Prod.snd, t)

/-- Source `EntityTracker.getEntitiesInRadius`: empty without an observer position;
otherwise count the query and run its body. -/
def getEntitiesInRadius (t : Tracker) : List Entity × Tracker :=
  match t.playerPosition with
  | none => ([], t)
  | some playerPosition =>
    getEntitiesInRadiusFrom { t with spatialQueries := t.spatialQueries + 1 } playerPosition

/-- The statistics record `EntityTracker.getStats` returns (the per-type
breakdown and byte estimates are omitted with the classification fields). -/
structure Stats where
  totalEntities : ℕ
  entitiesInRadius : ℕ
  radarRadius : ℚ
  playerPosition : Option Pos
  hasPlayerPosition : Bool
  distanceCacheSize : ℕ
  spatialGridCells : ℕ
deriving DecidableEq, Repr

/-- Source `EntityTracker.getStats`: runs a full radius query (whose cache fills and
counter increments persist) and reads the sizes off the resulting state. -/
def getStats (t : Tracker) : Stats × Tracker :=
  let (entitiesInRadius, t) := getEntitiesInRadius t
  ({ totalEntities := t.entities.length
     entitiesInRadius := entitiesInRadius.length
     radarRadius := t.radarRadius
     playerPosition := t.playerPosition
     hasPlayerPosition := t.playerPosition.isSome
     distanceCacheSize := t.distanceCache.length
     spatialGridCells := t.spatialGrid.length }, t)

/-- Dropping the whole distance cache (`distanceCache.clear()`, as performed
wholesale by `setPlayerPosition` on a bucket change and by the stale-entity
cleanup); the spec's "clearing the cache at any point". -/
def clearDistanceCache (t : Tracker) : Tracker :=
  { t with distanceCache := [] }

/-! ## Atomic output pipeline (`FileOutputManager`, src/unnamed/part_004)

The pipeline's interaction with the file system is modelled by an explicit
oracle: each write attempt (temp-file write followed by atomic rename)
consumes one `WriteOutcome` from a list.  `fail tempLeft` covers both failure
points (`tempLeft` records whether the temp file exists when the error is
handled).  Snapshots are modelled by an identifier `ℕ`; ghost fields log the
successfully renamed snapshots and the backoff delays, so the claims about
retry behaviour can be stated on the final state. -/

/-- Outcome of one temp-write + rename attempt. -/
inductive WriteOutcome where
  | ok
  | fail (tempLeft : Bool)
deriving DecidableEq, Repr

/-- State of the `FileOutputManager` (timing metrics and the directory handling are
real-time / file-system concerns outside the claims and are omitted;
`written` and `delays` are ghost logs). -/
structure FileOutputManager where
  pendingData : Option ℕ
  isWriting : Bool
  retryCount : ℕ
  maxRetries : ℕ
  retryDelay : ℚ
  tempFileExists : Bool
  totalWrites : ℕ
  successfulWrites : ℕ
  failedWrites : ℕ
  retryOperations : ℕ
  written : List ℕ
  delays : List ℚ
deriving DecidableEq, Repr

/-- The `FileOutputManager` constructor: retry ceiling 3, base delay 10 ms. -/
def FileOutputManager.new : FileOutputManager where
  pendingData := none
  isWriting := false
  retryCount := 0
  maxRetries := 3
  retryDelay := 10
  tempFileExists := false
  totalWrites := 0
  successfulWrites := 0
  failedWrites := 0
  retryOperations := 0
  written := []
  delays := []

/-- Source `FileOutputManager.performAtomicWrite`, with `handleWriteError` inlined as
the `fail` branch (the mutual recursion of the source becomes structural
recursion on the outcome oracle).  On success: count it, log the snapshot as
renamed into place, reset the retry counter and clear the pending snapshot.
On failure: count a failed attempt (`updatePerformanceMetrics(duration,
false)`), clean up the temp file if it exists, and either retry the *same*
pending snapshot after `retryDelay · 2^(retryCount-1)` ms, or — once the
ceiling is exceeded — count a second `failedWrites`, drop the snapshot and
reset. -/
def performAtomicWrite : FileOutputManager → List WriteOutcome → Bool × FileOutputManager
  | m, [] =>
    match m.pendingData with
    | none => (false, m)
    | some _ => (false, { m with totalWrites := m.totalWrites + 1 })
  | m, outcome :: rest =>
    match m.pendingData with
    | none => (false, m)
    | some snap =>
      let m := { m with isWriting := true, totalWrites := m.totalWrites + 1 }
      match outcome with
      | WriteOutcome.ok =>
        (true,
         { m with successfulWrites := m.successfulWrites + 1
                  written := m.written ++ [snap]
                  tempFileExists := false
                  retryCount := 0
                  pendingData := none
                  isWriting := false })
      | WriteOutcome.fail tempLeft =>
        let m := { m with failedWrites := m.failedWrites + 1
                          tempFileExists := tempLeft
                          isWriting := false }
        -- handleWriteError:
        let m := { m with tempFileExists := false }
        if m.retryCount < m.maxRetries then
          let m := { m with retryCount := m.retryCount + 1
                            retryOperations := m.retryOperations + 1 }
          let m := { m with delays :=
            m.delays ++ [m.retryDelay * ((2 ^ (m.retryCount - 1) : ℕ) : ℚ)] }
          performAtomicWrite m rest
        else
          (false,
           { m with failedWrites := m.failedWrites + 1
                    retryCount := 0
                    pendingData := none })

/-- Source `FileOutputManager.writeRadarData`: stash the snapshot as pending; if a
write is already in flight report success (the pending snapshot was
*replaced*), else start the atomic write. -/
def writeRadarData (m : FileOutputManager) (radarSnapshot : Option ℕ)
    (outcomes : List WriteOutcome) : Bool × FileOutputManager :=
  match radarSnapshot with
  | none => (false, m)
  | some snap =>
    let m := { m with pendingData := some snap }
    if m.isWriting then (true, m) else performAtomicWrite m outcomes

/-! ## Concrete scenario states

Small reachable tracker states used by the scenario theorems below.  All are
built exclusively through the public operations, so they are states the
running program can actually be in. -/

/-- C2 scenario state: radius 10 m, observer at the origin, entities 1, 2, 3
at raw distances 100, 200, 500 units. -/
def stUnits : Tracker :=
  [({ gameId := some 1, position := some ⟨some 100, some 0, some 0⟩ } : EntityData),
   { gameId := some 2, position := some ⟨some 200, some 0, some 0⟩ },
   { gameId := some 3, position := some ⟨some 500, some 0, some 0⟩ }].foldl
    (fun t d => (addEntity t d 1).2)
    (setPlayerPosition (Tracker.new 10) (some ⟨some 0, some 0, some 0⟩))

/-- Stale-cache scenario state (C1/C5): radius 50 m (824.5 raw units),
observer at the origin; entity 1 spawns at `(900, 900, 0)` — inside the
scanned grid cube but outside the radius — a query caches its raw distance,
then the entity moves to `(100, 0, 0)`, well inside the radius. -/
def stStale : Tracker :=
  (updateEntityPosition
    ((getEntitiesInRadius
      ((addEntity (setPlayerPosition (Tracker.new 50) (some ⟨some 0, some 0, some 0⟩))
        { gameId := some 1, position := some ⟨some 900, some 900, some 0⟩ } 100).2)).2)
    1 (some ⟨some 100, some 0, some 0⟩) 200).2

/-- Tie scenario state (C3): entity 7 then entity 3, both exactly 100 raw
units from the observer at the origin. -/
def stTie : Tracker :=
  (addEntity
    ((addEntity (setPlayerPosition (Tracker.new 50) (some ⟨some 0, some 0, some 0⟩))
      { gameId := some 7, position := some ⟨some 100, some 0, some 0⟩ } 1).2)
    { gameId := some 3, position := some ⟨some 0, some 100, some 0⟩ } 2).2

/-- Malformed-update scenario state (C4): entity 1 spawns at `(500, 0, 0)`
(grid cell `(1,0,0)` at cell size 412.25), then receives a position update
whose `z` component is missing. -/
def stMalformed : Tracker :=
  (updateEntityPosition
    ((addEntity (Tracker.new 50)
      { gameId := some 1, position := some ⟨some 500, some 0, some 0⟩ } 1).2)
    1 (some ⟨some 1, some 2, none⟩) 2).2

/-- Stats scenario state (C9): observer set, one entity in radius, all
performance counters still zero and the cache empty. -/
def stStats : Tracker :=
  (addEntity (setPlayerPosition (Tracker.new 50) (some ⟨some 0, some 0, some 0⟩))
    { gameId := some 4, position := some ⟨some 100, some 0, some 0⟩ } 1).2

set_option maxRecDepth 100000 in
/-- C2: with the observer at the origin and the radius configured as 10 m,
the conversion factor 16.49 turns the radius into 164.9 raw units, and the
query keeps exactly the entity at raw distance 100 (≈ 6.07 m), excluding the
ones at 200 and 500 raw units. -/
theorem query_converts_radius_to_raw_units :
    stUnits.radarRadiusTeraUnits = 1649 / 10 ∧
    (getEntitiesInRadius stUnits).1.map Entity.gameId = [1] ∧
    sqrtLe (distSq ⟨100, 0, 0⟩ ⟨0, 0, 0⟩) (1649 / 10) = true ∧
    sqrtLe (distSq ⟨200, 0, 0⟩ ⟨0, 0, 0⟩) (1649 / 10) = false ∧
    sqrtLe (distSq ⟨500, 0, 0⟩ ⟨0, 0, 0⟩) (1649 / 10) = false := by
  with_unfolding_all decide

set_option maxRecDepth 100000 in
/-- C1 (failing evaluation): after `stStale`'s position update, entity 1 is
tracked at `(100, 0, 0)`, whose true Euclidean distance 100 from the observer
is within the 824.5-unit radius, yet `getEntitiesInRadius` returns the empty
list — the membership test consumes the stale cached raw distance for the old
position, because `invalidateDistanceCache` deletes only the
`` `${gameId}_` ``-prefixed metric keys and never the `` `raw_${gameId}_` ``
keys that `isEntityInRadius` reads. -/
theorem query_misses_tracked_entity_within_radius :
    (mapGet 1 stStale.entities).map Entity.position = some ⟨100, 0, 0⟩ ∧
    stStale.playerPosition = some ⟨0, 0, 0⟩ ∧
    sqrtLe (distSq ⟨100, 0, 0⟩ ⟨0, 0, 0⟩) stStale.radarRadiusTeraUnits = true ∧
    (getEntitiesInRadius stStale).1 = [] := by
  with_unfolding_all decide

set_option maxRecDepth 100000 in
/-- C5 (failing evaluation): the distance cache is not transparent.  In
`stStale` the raw cache entry written before the position update survives it
(still holding the squared distance of the *old* position `(900, 900, 0)`),
and clearing the cache changes the result of the very next query from `[]`
to `[1]`. -/
theorem clearing_cache_changes_query_result :
    (mapGet (CacheKey.raw 1 (some ⟨0, 0, 0⟩)) stStale.distanceCache).map
      (fun d => qeq d (distSq ⟨900, 900, 0⟩ ⟨0, 0, 0⟩)) = some true ∧
    (mapGet 1 stStale.entities).map Entity.position = some ⟨100, 0, 0⟩ ∧
    (getEntitiesInRadius stStale).1 = [] ∧
    (getEntitiesInRadius (clearDistanceCache stStale)).1.map Entity.gameId = [1] := by
  with_unfolding_all decide

set_option maxRecDepth 100000 in
/-- C4 (failing evaluation): a position update with a malformed argument
(missing `z`) leaves the stored record at `(500, 0, 0)` but still relocates
the index entry: the record's own cell `(1, 0, 0)` disappears from the grid
while the entity sits in the junk cell `(0, 0, NaN)` — the index and the
entity map disagree. -/
theorem malformed_update_breaks_index_coherence :
    (mapGet 1 stMalformed.entities).map Entity.position = some ⟨500, 0, 0⟩ ∧
    getGridKey stMalformed.gridSize ⟨500, 0, 0⟩ = ⟨some 1, some 0, some 0⟩ ∧
    mapGet (⟨some 1, some 0, some 0⟩ : GridKey) stMalformed.spatialGrid = none ∧
    mapGet (⟨some 0, some 0, none⟩ : GridKey) stMalformed.spatialGrid = some [1] := by
  with_unfolding_all decide

/-- Pipeline scenario run (C7): a snapshot write that fails twice and then
succeeds on the third attempt, within the retry ceiling of 3. -/
def pipelineRun : Bool × FileOutputManager :=
  writeRadarData FileOutputManager.new (some 42)
    [WriteOutcome.fail true, WriteOutcome.fail true, WriteOutcome.ok]

/-- C7 (counterexample): after two failures and a success the pipeline
reports one successful write and two retry operations, but its
`failedWrites` counter is 2, not 0 — `updatePerformanceMetrics(duration,
false)` counts every failed *attempt*, not only dropped snapshots. -/
theorem retry_scenario_counts_failed_attempts :
    pipelineRun.2.successfulWrites = 1 ∧
    pipelineRun.2.retryOperations = 2 ∧
    pipelineRun.2.failedWrites ≠ 0 := by
  with_unfolding_all decide

/-- C7 (amended): in the two-failures-then-success scenario the pipeline
succeeds, counts one successful write, *two* failed attempts, two retries and
three total attempts; the same pending snapshot is retried each time (the
target file ends up holding snapshot 42 and nothing was dropped —
`pendingData` is consumed by the success, not by the ceiling), the temp file
is cleaned up whenever a failure left one, and the backoff delays grow
exponentially: 10 ms then 20 ms. -/
theorem retry_scenario_eventually_writes :
    pipelineRun.1 = true ∧
    pipelineRun.2.successfulWrites = 1 ∧
    pipelineRun.2.failedWrites = 2 ∧
    pipelineRun.2.retryOperations = 2 ∧
    pipelineRun.2.totalWrites = 3 ∧
    pipelineRun.2.pendingData = none ∧
    pipelineRun.2.written = [42] ∧
    pipelineRun.2.tempFileExists = false ∧
    pipelineRun.2.retryCount = 0 ∧
    pipelineRun.2.delays.map Rat.num = [10, 20] ∧
    pipelineRun.2.delays.map Rat.den = [1, 1] := by
  with_unfolding_all decide

set_option maxRecDepth 100000 in
/-- C9 (counterexample): `getStats` mutates the store: on `stStats` (observer
set, one entity in range, fresh counters and cache) it bumps the
spatial-query counter from 0 to 1 and fills one distance-cache entry (the
raw one written by the membership filter; the single-element result is never
handed to the sort comparator, so no metric entry appears). -/
theorem getStats_mutates_counters_and_cache :
    (getStats stStats).2.spatialQueries = 1 ∧
    stStats.spatialQueries = 0 ∧
    (getStats stStats).2.distanceCache.length = 1 ∧
    ((getStats stStats).2.distanceCache.map Prod.fst)
      = [CacheKey.raw 4 (some ⟨0, 0, 0⟩)] ∧
    stStats.distanceCache.length = 0 := by
  with_unfolding_all decide

set_option maxRecDepth 100000 in
/-- C3 (counterexample): entities 7 and 3 sit at exactly the same distance
(100 raw units) from the observer, yet the query returns `[7, 3]` — the tie
is *not* broken by ascending entity id; the stable sort keeps the spatial
grid traversal order. -/
theorem equal_distance_ties_not_ordered_by_id :
    (getEntitiesInRadius stTie).1.map Entity.gameId = [7, 3] ∧
    qeq (distSq ⟨100, 0, 0⟩ ⟨0, 0, 0⟩) (distSq ⟨0, 100, 0⟩ ⟨0, 0, 0⟩) = true ∧
    ¬ (7 : ℕ) ≤ 3 := by
  with_unfolding_all decide

/-- Eviction scenario state (C6): a store whose population ceiling is 20
(the ceiling is the claim's parameter `N`; the constructor pins it to 1000)
receiving 21 upserts with distinct ids 1..21 at strictly increasing
timestamps. -/
def stCeil20 : Tracker :=
  (List.range' 1 20).foldl (fun t i => (addEntity t { gameId := some i } i).2)
    { Tracker.new 50 with maxEntities := 20 }

/-- State `stCeil20` plus the 21st distinct insert, which trips the ceiling. -/
def stCeil : Tracker :=
  (addEntity stCeil20 { gameId := some 21 } 21).2

set_option maxRecDepth 100000 in
/-- C6 (counterexample): with ceiling `N = 20`, inserting `N + 1 = 21`
distinct entities leaves 19 present, not `N = 20`: the emergency cleanup
triggered by the 21st insert evicts `⌊N/10⌋ = 2` oldest entities before
inserting one. -/
theorem eviction_does_not_leave_exactly_ceiling :
    stCeil.maxEntities = 20 ∧
    stCeil.entityUpdates = 21 ∧
    stCeil.entities.length = 19 ∧
    stCeil.entities.length ≠ stCeil.maxEntities := by
  with_unfolding_all decide

/-! ## Frame lemmas: the query mutates only the cache and the counters -/

/-- Fold invariant preservation helper. -/
theorem foldl_preserves {α β : Type} (P : β → Prop) (f : β → α → β) (l : List α) (b : β)
    (hf : ∀ b a, P b → P (f b a)) (hb : P b) : P (l.foldl f b) := by
  induction l generalizing b with
  | nil => exact hb
  | cons a l ih => exact ih _ (hf _ _ hb)

/-- The function `getCachedRawDistanceSq` leaves the entity map, the spatial grid, the
observer position and the configured radius untouched. -/
theorem getCachedRawDistanceSq_frame (t : Tracker) (g : ℕ) (pp : Pos) :
    ((getCachedRawDistanceSq t g pp).2).entities = t.entities ∧
    ((getCachedRawDistanceSq t g pp).2).spatialGrid = t.spatialGrid ∧
    ((getCachedRawDistanceSq t g pp).2).playerPosition = t.playerPosition ∧
    ((getCachedRawDistanceSq t g pp).2).radarRadius = t.radarRadius := by
  unfold getCachedRawDistanceSq
  cases mapGet g t.entities with
  | none => exact ⟨rfl, rfl, rfl, rfl⟩
  | some e =>
    simp only
    cases mapGet (CacheKey.raw g t.lastPlayerPosHash) t.distanceCache with
    | none => exact ⟨rfl, rfl, rfl, rfl⟩
    | some d => exact ⟨rfl, rfl, rfl, rfl⟩

/-- The function `getCachedDistanceSq` leaves the entity map, the spatial grid, the
observer position and the configured radius untouched. -/
theorem getCachedDistanceSq_frame (t : Tracker) (g : ℕ) (pp : Pos) :
    ((getCachedDistanceSq t g pp).2).entities = t.entities ∧
    ((getCachedDistanceSq t g pp).2).spatialGrid = t.spatialGrid ∧
    ((getCachedDistanceSq t g pp).2).playerPosition = t.playerPosition ∧
    ((getCachedDistanceSq t g pp).2).radarRadius = t.radarRadius := by
  unfold getCachedDistanceSq
  cases mapGet g t.entities with
  | none => exact ⟨rfl, rfl, rfl, rfl⟩
  | some e =>
    simp only
    cases mapGet (CacheKey.meters g t.lastPlayerPosHash) t.distanceCache with
    | none => exact ⟨rfl, rfl, rfl, rfl⟩
    | some d => exact ⟨rfl, rfl, rfl, rfl⟩

/-- The function `isEntityInRadius` leaves the entity map, the spatial grid, the observer
position and the configured radius untouched. -/
theorem isEntityInRadius_frame (t : Tracker) (e : Entity) (pp : Pos) (r : ℚ) :
    ((isEntityInRadius t e pp r).2).entities = t.entities ∧
    ((isEntityInRadius t e pp r).2).spatialGrid = t.spatialGrid ∧
    ((isEntityInRadius t e pp r).2).playerPosition = t.playerPosition ∧
    ((isEntityInRadius t e pp r).2).radarRadius = t.radarRadius := by
  have h := getCachedRawDistanceSq_frame t e.gameId pp
  unfold isEntityInRadius
  cases hm : getCachedRawDistanceSq t e.gameId pp with
  | mk fst snd =>
    rw [hm] at h
    cases fst with
    | none => exact h
    | some d => exact h

/-- The function `radiusFilterStep` leaves the entity map, the spatial grid and the
observer position untouched. -/
theorem radiusFilterStep_frame (pp : Pos) (acc : List Entity × Tracker) (gid : ℕ) :
    ((radiusFilterStep pp acc gid).2).entities = acc.2.entities ∧
    ((radiusFilterStep pp acc gid).2).spatialGrid = acc.2.spatialGrid ∧
    ((radiusFilterStep pp acc gid).2).playerPosition = acc.2.playerPosition ∧
    ((radiusFilterStep pp acc gid).2).radarRadius = acc.2.radarRadius := by
  unfold radiusFilterStep
  split
  · exact ⟨rfl, rfl, rfl, rfl⟩
  · rename_i e heq
    have h := isEntityInRadius_frame acc.2 e pp acc.2.radarRadiusTeraUnits
    split
    · rename_i t' hm
      rw [hm] at h
      exact h
    · rename_i t' hm
      rw [hm] at h
      exact h

/-- The function `distKeyStep` leaves the entity map, the spatial grid and the observer
position untouched. -/
theorem distKeyStep_frame (pp : Pos) (acc : List (Option ℚ × Entity) × Tracker)
    (e : Entity) :
    ((distKeyStep pp acc e).2).entities = acc.2.entities ∧
    ((distKeyStep pp acc e).2).spatialGrid = acc.2.spatialGrid ∧
    ((distKeyStep pp acc e).2).playerPosition = acc.2.playerPosition ∧
    ((distKeyStep pp acc e).2).radarRadius = acc.2.radarRadius := by
  unfold distKeyStep
  have h := getCachedDistanceSq_frame acc.2 e.gameId pp
  split
  rename_i d t' hm
  rw [hm] at h
  exact h

/-- The function `getEntitiesInRadiusFrom` leaves the entity map, the spatial grid, the
observer position and the configured radius untouched. -/
theorem getEntitiesInRadiusFrom_frame (t : Tracker) (pp : Pos) :
    ((getEntitiesInRadiusFrom t pp).2).entities = t.entities ∧
    ((getEntitiesInRadiusFrom t pp).2).spatialGrid = t.spatialGrid ∧
    ((getEntitiesInRadiusFrom t pp).2).playerPosition = t.playerPosition ∧
    ((getEntitiesInRadiusFrom t pp).2).radarRadius = t.radarRadius := by
  unfold getEntitiesInRadiusFrom
  simp only
  have h1 := foldl_preserves
    (fun (acc : List Entity × Tracker) => acc.2.entities = t.entities ∧
      acc.2.spatialGrid = t.spatialGrid ∧ acc.2.playerPosition = t.playerPosition ∧
      acc.2.radarRadius = t.radarRadius)
    (radiusFilterStep pp)
    (getSpatialCandidates t pp t.radarRadiusTeraUnits)
    ([], t)
    (by
      intro b a hb
      have h := radiusFilterStep_frame pp b a
      exact ⟨h.1.trans hb.1, h.2.1.trans hb.2.1, h.2.2.1.trans hb.2.2.1,
        h.2.2.2.trans hb.2.2.2⟩)
    ⟨rfl, rfl, rfl, rfl⟩
  split
  · exact h1
  · exact foldl_preserves
      (fun (acc : List (Option ℚ × Entity) × Tracker) => acc.2.entities = t.entities ∧
        acc.2.spatialGrid = t.spatialGrid ∧ acc.2.playerPosition = t.playerPosition ∧
        acc.2.radarRadius = t.radarRadius)
      (distKeyStep pp)
      ((getSpatialCandidates t pp t.radarRadiusTeraUnits).foldl (radiusFilterStep pp) ([], t)).1
      ([], ((getSpatialCandidates t pp t.radarRadiusTeraUnits).foldl (radiusFilterStep pp) ([], t)).2)
      (by
        intro b a hb
        have h := distKeyStep_frame pp b a
        exact ⟨h.1.trans hb.1, h.2.1.trans hb.2.1, h.2.2.1.trans hb.2.2.1,
          h.2.2.2.trans hb.2.2.2⟩)
      h1

/-- The function `getEntitiesInRadius` leaves the entity map, the spatial grid, the
observer position and the configured radius untouched. -/
theorem getEntitiesInRadius_frame (t : Tracker) :
    ((getEntitiesInRadius t).2).entities = t.entities ∧
    ((getEntitiesInRadius t).2).spatialGrid = t.spatialGrid ∧
    ((getEntitiesInRadius t).2).playerPosition = t.playerPosition ∧
    ((getEntitiesInRadius t).2).radarRadius = t.radarRadius := by
  unfold getEntitiesInRadius
  cases hp : t.playerPosition with
  | none => exact ⟨rfl, rfl, hp, rfl⟩
  | some pp =>
    simp only
    have h := getEntitiesInRadiusFrom_frame
      { t with spatialQueries := t.spatialQueries + 1 } pp
    rw [hp] at h
    exact h

/-- C9 (amended): `getStats` leaves the entity map, the spatial index and the
observer position unchanged (it may only fill the distance cache and bump
performance counters through the query it runs), and reports the population,
in-radius count, configured radius, cache size and index cell count of the
store. -/
theorem getStats_reports_without_touching_core_state (t : Tracker) :
    ((getStats t).2).entities = t.entities ∧
    ((getStats t).2).spatialGrid = t.spatialGrid ∧
    ((getStats t).2).playerPosition = t.playerPosition ∧
    (getStats t).1.totalEntities = t.entities.length ∧
    (getStats t).1.entitiesInRadius = (getEntitiesInRadius t).1.length ∧
    (getStats t).1.radarRadius = t.radarRadius ∧
    (getStats t).1.playerPosition = t.playerPosition ∧
    (getStats t).1.hasPlayerPosition = t.playerPosition.isSome ∧
    (getStats t).1.distanceCacheSize = ((getEntitiesInRadius t).2).distanceCache.length ∧
    (getStats t).1.spatialGridCells = t.spatialGrid.length := by
  have hframe := getEntitiesInRadius_frame t
  unfold getStats
  cases hq : getEntitiesInRadius t with
  | mk es t2 =>
    rw [hq] at hframe
    refine ⟨hframe.1, hframe.2.1, hframe.2.2.1, ?_, rfl, hframe.2.2.2, hframe.2.2.1,
      ?_, rfl, ?_⟩
    · exact congrArg List.length hframe.1
    · exact congrArg Option.isSome hframe.2.2.1
    · exact congrArg List.length hframe.2.1

/-! ## `removeEntity`: absent ids are a no-op, removal is idempotent (C8) -/

/-- An absent key means every binding misses it. -/
theorem mapGet_eq_none_iff {K V : Type} [DecidableEq K] (k : K) (l : List (K × V)) :
    mapGet k l = none ↔ ∀ p ∈ l, p.1 ≠ k := by
  induction l with
  | nil => simp [mapGet]
  | cons p rest ih =>
    by_cases hp : p.1 = k
    · simp [mapGet, hp]
    · simp [mapGet, hp, ih]

/-- Deleting an absent key changes nothing. -/
theorem mapDelete_of_get_none {K V : Type} [DecidableEq K] (k : K) (l : List (K × V))
    (h : mapGet k l = none) : mapDelete k l = l := by
  unfold mapDelete
  refine List.filter_eq_self.mpr ?_
  intro p hp
  simp only [Bool.not_eq_true']
  exact decide_eq_false ((mapGet_eq_none_iff k l).mp h p hp)

/-- After a delete the key is gone. -/
theorem mapGet_mapDelete {K V : Type} [DecidableEq K] (k : K) (l : List (K × V)) :
    mapGet k (mapDelete k l) = none := by
  rw [mapGet_eq_none_iff]
  intro p hp
  have := (List.mem_filter.mp hp).2
  simpa using this

/-- Invalidation is the identity when no metric entry of the id is cached. -/
theorem invalidateDistanceCache_of_noMeters (t : Tracker) (gid : ℕ)
    (h : t.distanceCache.all (fun p => !keyStartsWithGameId gid p.1) = true) :
    invalidateDistanceCache t gid = t := by
  unfold invalidateDistanceCache
  have heq : t.distanceCache.filter (fun p => !keyStartsWithGameId gid p.1) =
      t.distanceCache :=
    List.filter_eq_self.mpr (fun a ha => List.all_eq_true.mp h a ha)
  rw [heq]

/-- The function `removeFromSpatialIndex` touches only the spatial grid. -/
theorem removeFromSpatialIndex_frame (t : Tracker) (g : ℕ) (k : GridKey) :
    (removeFromSpatialIndex t g k).entities = t.entities ∧
    (removeFromSpatialIndex t g k).distanceCache = t.distanceCache ∧
    (removeFromSpatialIndex t g k).gridSize = t.gridSize := by
  unfold removeFromSpatialIndex
  split
  · dsimp only
    split
    · exact ⟨rfl, rfl, rfl⟩
    · exact ⟨rfl, rfl, rfl⟩
  · exact ⟨rfl, rfl, rfl⟩

/-- Core of C8: removing an id that is not in the map (and has no metric
cache entries, which is invariant for absent ids) returns `false` and leaves
the whole store untouched. -/
theorem removeEntity_absent (t : Tracker) (gid : ℕ)
    (h1 : mapGet gid t.entities = none)
    (h2 : t.distanceCache.all (fun p => !keyStartsWithGameId gid p.1) = true) :
    removeEntity t gid = (false, t) := by
  simp only [removeEntity, h1]
  rw [invalidateDistanceCache_of_noMeters t gid h2, h1,
    mapDelete_of_get_none gid t.entities h1]
  rfl

/-- The result state of any `removeEntity` call. -/
theorem removeEntity_snd_entities (s : Tracker) (g : ℕ) :
    ((removeEntity s g).2).entities = mapDelete g s.entities := by
  simp only [removeEntity]
  cases hm : mapGet g s.entities with
  | none => rfl
  | some e =>
    simp only [invalidateDistanceCache]
    exact congrArg (mapDelete g)
      (removeFromSpatialIndex_frame s g (getGridKey s.gridSize e.position)).1

/-- The cache of any `removeEntity` result is already invalidated. -/
theorem removeEntity_snd_cache (s : Tracker) (g : ℕ) :
    ((removeEntity s g).2).distanceCache =
      s.distanceCache.filter (fun p => !keyStartsWithGameId g p.1) := by
  simp only [removeEntity]
  cases hm : mapGet g s.entities with
  | none => rfl
  | some e =>
    simp only [invalidateDistanceCache]
    exact congrArg (List.filter _)
      (removeFromSpatialIndex_frame s g (getGridKey s.gridSize e.position)).2.1

/-- A second `removeEntity` of the same id (after any first call, successful
or not) returns `false` and changes nothing. -/
theorem removeEntity_idem (s : Tracker) (g : ℕ) :
    removeEntity (removeEntity s g).2 g = (false, (removeEntity s g).2) := by
  apply removeEntity_absent
  · rw [removeEntity_snd_entities]
    exact mapGet_mapDelete g s.entities
  · rw [removeEntity_snd_cache]
    refine List.all_eq_true.mpr ?_
    intro p hp
    exact (List.mem_filter.mp hp).2

/-- C8: for an id with no binding in the store (and hence, in any reachable
state, no metric distance-cache entry either), `removeEntity` returns `false`
and leaves the store exactly as it was; and after any removal a second call
with the same id also returns `false` and changes nothing (idempotence). -/
theorem removeEntity_missing_noop_and_idempotent (t : Tracker) (gid : ℕ)
    (h1 : mapGet gid t.entities = none)
    (h2 : t.distanceCache.all (fun p => !keyStartsWithGameId gid p.1) = true) :
    removeEntity t gid = (false, t) ∧
    ∀ (s : Tracker) (g : ℕ),
      removeEntity (removeEntity s g).2 g = (false, (removeEntity s g).2) :=
  ⟨removeEntity_absent t gid h1 h2, removeEntity_idem⟩

/-- C8 witness: the theorem applied to a concrete reachable store (radius
50 m, entity 4 tracked) and the absent id 5. -/
theorem removeEntity_missing_noop_and_idempotent_witness :
    removeEntity stStats 5 = (false, stStats) ∧
    ∀ (s : Tracker) (g : ℕ),
      removeEntity (removeEntity s g).2 g = (false, (removeEntity s g).2) :=
  removeEntity_missing_noop_and_idempotent stStats 5
    (by with_unfolding_all decide) (by with_unfolding_all decide)

/-! ## The query output is sorted by distance (C3, amended) -/

/-- Fold invariant preservation helper, with membership. -/
theorem foldl_preserves_mem {α β : Type} (P : β → Prop) (f : β → α → β) (l : List α)
    (b : β) (hf : ∀ b a, a ∈ l → P b → P (f b a)) (hb : P b) : P (l.foldl f b) := by
  induction l generalizing b with
  | nil => exact hb
  | cons a l ih =>
    exact ih _ (fun b' a' ha' => hf b' a' (List.mem_cons_of_mem a ha'))
      (hf b a (List.mem_cons_self a l) hb)

/-- A successful lookup is a binding of the list. -/
theorem mapGet_some_mem {K V : Type} [DecidableEq K] {k : K} {l : List (K × V)} {v : V}
    (h : mapGet k l = some v) : (k, v) ∈ l := by
  induction l with
  | nil => simp [mapGet] at h
  | cons p rest ih =>
    by_cases hp : p.1 = k
    · simp only [mapGet, hp, if_pos] at h
      have : p = (k, v) := by
        cases p with
        | mk a b =>
          simp only at hp
          simp only [Option.some.injEq] at h
          rw [hp, h]
      rw [← this]
      exact List.mem_cons_self p rest
    · simp only [mapGet, hp, if_neg, if_false] at h
      exact List.mem_cons_of_mem _ (ih h)

/-- Members of `mapSet` are the new binding or old members. -/
theorem mem_mapSet {K V : Type} [DecidableEq K] {k : K} {v : V} {l : List (K × V)}
    {p : K × V} (h : p ∈ mapSet k v l) : p = (k, v) ∨ p ∈ l := by
  induction l with
  | nil => simpa [mapSet] using h
  | cons q rest ih =>
    by_cases hq : q.1 = k
    · simp only [mapSet, hq, if_pos] at h
      rcases List.mem_cons.mp h with h' | h'
      · exact Or.inl h'
      · exact Or.inr (List.mem_cons_of_mem _ h')
    · simp only [mapSet, hq, if_neg, if_false] at h
      rcases List.mem_cons.mp h with h' | h'
      · exact Or.inr (h' ▸ List.mem_cons_self q rest)
      · rcases ih h' with h'' | h''
        · exact Or.inl h''
        · exact Or.inr (List.mem_cons_of_mem _ h'')

/-- Membership through stable insertion. -/
theorem mem_insertStableBy {α : Type} {lt : α → α → Bool} {a x : α} {l : List α} :
    x ∈ insertStableBy lt a l ↔ x = a ∨ x ∈ l := by
  induction l with
  | nil => simp [insertStableBy]
  | cons b bs ih =>
    unfold insertStableBy
    by_cases hb : lt b a = true
    · simp [hb, ih]
      tauto
    · simp [hb]

/-- Membership through the stable sort. -/
theorem mem_sortStableBy {α : Type} {lt : α → α → Bool} {x : α} {l : List α} :
    x ∈ sortStableBy lt l ↔ x ∈ l := by
  induction l with
  | nil => simp [sortStableBy]
  | cons a as ih =>
    unfold sortStableBy
    rw [mem_insertStableBy]
    simp [ih]

/-- Stable insertion keeps the list pairwise-ordered under a negatively
transitive, asymmetric comparator. -/
theorem insertStableBy_pairwise {α : Type} (lt : α → α → Bool)
    (hasymm : ∀ a b, lt a b = true → lt b a = false)
    (htrans : ∀ a b c, lt b a = false → lt c b = false → lt c a = false)
    (a : α) (l : List α) (hl : l.Pairwise (fun x y => lt y x = false)) :
    (insertStableBy lt a l).Pairwise (fun x y => lt y x = false) := by
  induction l with
  | nil => simp [insertStableBy]
  | cons b bs ih =>
    rcases List.pairwise_cons.mp hl with ⟨hb, hbs⟩
    unfold insertStableBy
    by_cases hba : lt b a = true
    · rw [if_pos hba]
      refine List.pairwise_cons.mpr ⟨?_, ih hbs⟩
      intro x hx
      rcases mem_insertStableBy.mp hx with rfl | hx'
      · exact hasymm b x hba
      · exact hb x hx'
    · rw [if_neg hba]
      refine List.pairwise_cons.mpr ⟨?_, hl⟩
      intro x hx
      rcases List.mem_cons.mp hx with rfl | hx'
      · exact Bool.eq_false_iff.mpr hba
      · exact htrans a b x (Bool.eq_false_iff.mpr hba) (hb x hx')

/-- The stable sort orders any list pairwise under such a comparator. -/
theorem sortStableBy_pairwise {α : Type} (lt : α → α → Bool)
    (hasymm : ∀ a b, lt a b = true → lt b a = false)
    (htrans : ∀ a b c, lt b a = false → lt c b = false → lt c a = false)
    (l : List α) :
    (sortStableBy lt l).Pairwise (fun x y => lt y x = false) := by
  induction l with
  | nil => simp [sortStableBy]
  | cons a as ih => exact insertStableBy_pairwise lt hasymm htrans a _ ih

/-- The comparator key order is asymmetric. -/
theorem distLt_asymm (a b : Option ℚ) (h : distLt a b = true) : distLt b a = false := by
  cases a with
  | none => simp [distLt] at h
  | some x =>
    cases b with
    | none => simp [distLt]
    | some y =>
      simp only [distLt, decide_eq_true_eq] at h
      simp only [distLt, decide_eq_false_iff_not]
      exact not_lt.mpr (le_of_lt h)

/-- The comparator key order is negatively transitive. -/
theorem distLt_neg_trans (a b c : Option ℚ) (h1 : distLt b a = false)
    (h2 : distLt c b = false) : distLt c a = false := by
  cases c with
  | none => simp [distLt]
  | some z =>
    cases a with
    | none =>
      cases b with
      | none => simp [distLt] at h2
      | some y => simp [distLt] at h1
    | some x =>
      cases b with
      | none => simp [distLt] at h2
      | some y =>
        simp only [distLt, decide_eq_false_iff_not, not_lt] at h1 h2 ⊢
        exact le_trans h1 h2

/-- The metric distance-cache entries for the current observer bucket are
accurate: each one holds the squared metric distance of the entity's current
position from `pp`.  This is the reachable-state invariant the cache protocol
maintains for *metric* keys (they are invalidated on every entity mutation
and cleared on observer movement); the stale `raw` entries of C1/C5 are not
constrained. -/
def metersAccurate (t : Tracker) (pp : Pos) : Prop :=
  ∀ p ∈ t.distanceCache, ∀ g : ℕ,
    p.1 = CacheKey.meters g t.lastPlayerPosHash →
    ∀ e, mapGet g t.entities = some e → p.2 = meterDistSq e.position pp

/-- The raw-distance cache protocol does not disturb metric accuracy (it only
adds `raw` keys), nor the entity map or the observer bucket. -/
theorem getCachedRawDistanceSq_accs (t : Tracker) (g : ℕ) (pp : Pos)
    (h : metersAccurate t pp) :
    ((getCachedRawDistanceSq t g pp).2).lastPlayerPosHash = t.lastPlayerPosHash ∧
    metersAccurate ((getCachedRawDistanceSq t g pp).2) pp := by
  unfold getCachedRawDistanceSq
  cases mapGet g t.entities with
  | none => exact ⟨rfl, h⟩
  | some e =>
    simp only
    cases mapGet (CacheKey.raw g t.lastPlayerPosHash) t.distanceCache with
    | some d => exact ⟨rfl, h⟩
    | none =>
      refine ⟨rfl, ?_⟩
      intro p hp g' hkey e' he'
      rcases mem_mapSet hp with rfl | hp'
      · simp at hkey
      · exact h p hp' g' hkey e' he'

/-- Metric lookups under an accurate cache return exactly the squared metric
distance of the entity's current position, and preserve accuracy. -/
theorem getCachedDistanceSq_accurate (t : Tracker) (g : ℕ) (pp : Pos) (e : Entity)
    (hacc : metersAccurate t pp) (he : mapGet g t.entities = some e) :
    (getCachedDistanceSq t g pp).1 = some (meterDistSq e.position pp) ∧
    ((getCachedDistanceSq t g pp).2).lastPlayerPosHash = t.lastPlayerPosHash ∧
    metersAccurate ((getCachedDistanceSq t g pp).2) pp := by
  unfold getCachedDistanceSq
  rw [he]
  simp only
  cases hc : mapGet (CacheKey.meters g t.lastPlayerPosHash) t.distanceCache with
  | some d =>
    simp only
    have hmem := mapGet_some_mem hc
    have hval := hacc (CacheKey.meters g t.lastPlayerPosHash, d) hmem g rfl e he
    simp only at hval
    exact ⟨by rw [hval], trivial, hacc⟩
  | none =>
    simp only
    refine ⟨trivial, trivial, ?_⟩
    intro p hp g' hkey e' he'
    rcases mem_mapSet hp with rfl | hp'
    · simp only [CacheKey.meters.injEq] at hkey
      rcases hkey with ⟨rfl, -⟩
      rw [he] at he'
      cases he'
      rfl
    · exact hacc p hp' g' hkey e' he'

/-- Invariant carried through the candidate-filter fold: kept entities are
current map bindings under their own id, the map and bucket are unchanged,
and the metric cache stays accurate. -/
def FilterInv (t : Tracker) (pp : Pos) (acc : List Entity × Tracker) : Prop :=
  (∀ e ∈ acc.1, mapGet e.gameId t.entities = some e) ∧
  acc.2.entities = t.entities ∧
  acc.2.lastPlayerPosHash = t.lastPlayerPosHash ∧
  metersAccurate acc.2 pp

/-- The function `radiusFilterStep` preserves `FilterInv` (given key-consistency of the
entity map, as the running program maintains). -/
theorem radiusFilterStep_inv (t : Tracker) (pp : Pos)
    (hcons : ∀ p ∈ t.entities, p.2.gameId = p.1)
    (acc : List Entity × Tracker) (gid : ℕ) (hinv : FilterInv t pp acc) :
    FilterInv t pp (radiusFilterStep pp acc gid) := by
  obtain ⟨hlist, hent, hhash, hacc⟩ := hinv
  unfold radiusFilterStep
  split
  · exact ⟨hlist, hent, hhash, hacc⟩
  · rename_i e heq
    rw [hent] at heq
    have hgid : e.gameId = gid := hcons (gid, e) (mapGet_some_mem heq)
    have hself : mapGet e.gameId t.entities = some e := by rw [hgid]; exact heq
    have hframe := isEntityInRadius_frame acc.2 e pp acc.2.radarRadiusTeraUnits
    have haccs : ((isEntityInRadius acc.2 e pp acc.2.radarRadiusTeraUnits).2).lastPlayerPosHash
          = acc.2.lastPlayerPosHash ∧
        metersAccurate ((isEntityInRadius acc.2 e pp acc.2.radarRadiusTeraUnits).2) pp := by
      unfold isEntityInRadius
      have h := getCachedRawDistanceSq_accs acc.2 e.gameId pp hacc
      cases hm : getCachedRawDistanceSq acc.2 e.gameId pp with
      | mk fst snd =>
        rw [hm] at h
        cases fst with
        | none => exact h
        | some d => exact h
    have hframe2 : ((isEntityInRadius acc.2 e pp acc.2.radarRadiusTeraUnits).2).entities
        = acc.2.entities := hframe.1
    rw [hhash] at haccs
    split
    · rename_i t' hm
      rw [hm] at haccs hframe2
      refine ⟨?_, hframe2.trans hent, haccs.1, haccs.2⟩
      intro x hx
      rcases List.mem_append.mp hx with hx' | hx'
      · exact hlist x hx'
      · rw [List.mem_singleton.mp hx']
        exact hself
    · rename_i t' hm
      rw [hm] at haccs hframe2
      exact ⟨hlist, hframe2.trans hent, haccs.1, haccs.2⟩

/-- Invariant carried through the key-memoization fold: every key equals the
squared metric distance of its entity's current position. -/
def KeyInv (t : Tracker) (pp : Pos) (acc : List (Option ℚ × Entity) × Tracker) : Prop :=
  (∀ q ∈ acc.1, q.1 = some (meterDistSq q.2.position pp)) ∧
  acc.2.entities = t.entities ∧
  acc.2.lastPlayerPosHash = t.lastPlayerPosHash ∧
  metersAccurate acc.2 pp

/-- The function `distKeyStep` preserves `KeyInv` for entities bound in the map under
their own id. -/
theorem distKeyStep_inv (t : Tracker) (pp : Pos) (acc : List (Option ℚ × Entity) × Tracker)
    (e : Entity) (he : mapGet e.gameId t.entities = some e)
    (hinv : KeyInv t pp acc) : KeyInv t pp (distKeyStep pp acc e) := by
  obtain ⟨hlist, hent, hhash, hacc⟩ := hinv
  unfold distKeyStep
  have he' : mapGet e.gameId acc.2.entities = some e := by rw [hent]; exact he
  have h := getCachedDistanceSq_accurate acc.2 e.gameId pp e hacc he'
  have hf := getCachedDistanceSq_frame acc.2 e.gameId pp
  split
  rename_i d t' hm
  rw [hm] at h hf
  simp only at h hf
  refine ⟨?_, hf.1.trans hent, h.2.1.trans hhash, h.2.2⟩
  intro q hq
  rcases List.mem_append.mp hq with hq' | hq'
  · exact hlist q hq'
  · rw [List.mem_singleton.mp hq']
    exact h.1

/-- Lists of at most one element are pairwise-anything (a sort comparator is
never consulted for them). -/
theorem pairwise_of_length_le_one {α : Type} {R : α → α → Prop} (l : List α)
    (h : l.length ≤ 1) : l.Pairwise R := by
  cases l with
  | nil => exact List.Pairwise.nil
  | cons a tail =>
    cases tail with
    | nil => exact List.pairwise_singleton R a
    | cons b r => simp at h

/-- The query body returns a list that is pairwise sorted by true squared
distance from the observer, assuming the map's key consistency and the
metric-cache accuracy invariant. -/
theorem getEntitiesInRadiusFrom_sorted (t : Tracker) (pp : Pos)
    (hcons : ∀ p ∈ t.entities, p.2.gameId = p.1)
    (hacc : metersAccurate t pp) :
    ((getEntitiesInRadiusFrom t pp).1).Pairwise
      (fun a b => distSq a.position pp ≤ distSq b.position pp) := by
  unfold getEntitiesInRadiusFrom
  simp only
  have h1 : FilterInv t pp ((getSpatialCandidates t pp t.radarRadiusTeraUnits).foldl
      (radiusFilterStep pp) ([], t)) :=
    foldl_preserves (FilterInv t pp) (radiusFilterStep pp) _ ([], t)
      (fun b a hb => radiusFilterStep_inv t pp hcons b a hb)
      ⟨fun e he => absurd he (List.not_mem_nil e), rfl, rfl, hacc⟩
  have h2 : KeyInv t pp
      ((((getSpatialCandidates t pp t.radarRadiusTeraUnits).foldl
        (radiusFilterStep pp) ([], t)).1).foldl (distKeyStep pp)
        ([], ((getSpatialCandidates t pp t.radarRadiusTeraUnits).foldl
          (radiusFilterStep pp) ([], t)).2)) :=
    foldl_preserves_mem (KeyInv t pp) (distKeyStep pp) _ _
      (fun b a ha hb => distKeyStep_inv t pp b a (h1.1 a ha) hb)
      ⟨fun q hq => absurd hq (List.not_mem_nil q), h1.2.1, h1.2.2.1, h1.2.2.2⟩
  split
  · rename_i hlen
    exact pairwise_of_length_le_one _ hlen
  rw [List.pairwise_map]
  have hsor := sortStableBy_pairwise (fun a b => distLt a.1 b.1)
    (fun x y h => distLt_asymm x.1 y.1 h)
    (fun x y z hxy hyz => distLt_neg_trans x.1 y.1 z.1 hxy hyz)
    ((((getSpatialCandidates t pp t.radarRadiusTeraUnits).foldl
      (radiusFilterStep pp) ([], t)).1).foldl (distKeyStep pp)
      ([], ((getSpatialCandidates t pp t.radarRadiusTeraUnits).foldl
        (radiusFilterStep pp) ([], t)).2)).1
  refine List.Pairwise.imp_of_mem ?_ hsor
  intro a b ha hb hr
  have ka := h2.1 a (mem_sortStableBy.mp ha)
  have kb := h2.1 b (mem_sortStableBy.mp hb)
  rw [ka, kb] at hr
  simp only [distLt, decide_eq_false_iff_not, not_lt] at hr
  have hpos : (0 : ℚ) < TERA_UNITS_PER_METER * TERA_UNITS_PER_METER := by
    norm_num [TERA_UNITS_PER_METER]
  have := (div_le_div_iff_of_pos_right hpos).mp hr
  simpa [meterDistSq] using this

/-- C3 (amended): the entity list returned by `getEntitiesInRadius` is always
sorted ascending by true distance from the observer (equal-distance ties keep
the deterministic grid-traversal order rather than ascending id; see the
counterexample).  The hypotheses are the reachable-state invariants: the map
binds every record under its own id, and the metric cache entries for the
current bucket are accurate. -/
theorem query_sorted_by_distance (t : Tracker) (pp : Pos)
    (hp : t.playerPosition = some pp)
    (hcons : ∀ p ∈ t.entities, p.2.gameId = p.1)
    (hacc : metersAccurate t pp) :
    ((getEntitiesInRadius t).1).Pairwise
      (fun a b => distSq a.position pp ≤ distSq b.position pp) := by
  unfold getEntitiesInRadius
  rw [hp]
  exact getEntitiesInRadiusFrom_sorted _ pp hcons hacc

/-- C3 witness: the sortedness theorem applied to the concrete tie state
(entities 7 and 3 at distance 100), with the invariants checked by
evaluation. -/
theorem query_sorted_by_distance_witness :
    ((getEntitiesInRadius stTie).1).Pairwise
      (fun a b => distSq a.position ⟨0, 0, 0⟩ ≤ distSq b.position ⟨0, 0, 0⟩) :=
  query_sorted_by_distance stTie ⟨0, 0, 0⟩
    (by with_unfolding_all decide)
    (by with_unfolding_all decide)
    (by
      intro p hp
      rw [show stTie.distanceCache = [] from by with_unfolding_all decide] at hp
      cases hp)

/-! ## Entities without a known position never enter query results (C10) -/

/-- The binding written by `mapSet` is found again. -/
theorem mapGet_mapSet_self {K V : Type} [DecidableEq K] (k : K) (v : V)
    (l : List (K × V)) : mapGet k (mapSet k v l) = some v := by
  induction l with
  | nil => simp [mapSet, mapGet]
  | cons p rest ih =>
    by_cases hp : p.1 = k
    · simp [mapSet, hp, mapGet]
    · simp [mapSet, hp, mapGet, ih]

/-- Filtering cannot create a binding. -/
theorem mapGet_filter_none {K V : Type} [DecidableEq K] (k : K) (l : List (K × V))
    (p : K × V → Bool) (h : mapGet k l = none) : mapGet k (l.filter p) = none := by
  rw [mapGet_eq_none_iff] at h ⊢
  intro q hq
  exact h q (List.mem_filter.mp hq).1

/-- Members of `setAdd`. -/
theorem mem_setAdd {α : Type} [DecidableEq α] {a x : α} {s : List α}
    (h : x ∈ setAdd a s) : x = a ∨ x ∈ s := by
  unfold setAdd at h
  by_cases hm : a ∈ s
  · rw [if_pos hm] at h
    exact Or.inr h
  · rw [if_neg hm] at h
    rcases List.mem_append.mp h with h' | h'
    · exact Or.inr h'
    · exact Or.inl (List.mem_singleton.mp h')

/-- Property: `g` occupies no cell of the spatial grid. -/
def NotInGrid (g : ℕ) (t : Tracker) : Prop :=
  ∀ c ∈ t.spatialGrid, g ∉ c.2

/-- The function `removeFromSpatialIndex` only ever shrinks cell contents, so an id that
occupied no cell still occupies none. -/
theorem notInGrid_removeFromSpatialIndex (g : ℕ) (t : Tracker) (gid : ℕ) (k : GridKey)
    (h : NotInGrid g t) : NotInGrid g (removeFromSpatialIndex t gid k) := by
  unfold removeFromSpatialIndex
  split
  · rename_i cell hm
    dsimp only
    split
    · intro c hc
      exact h c (List.mem_filter.mp hc).1
    · intro c hc
      rcases mem_mapSet hc with rfl | hc'
      · intro hg
        exact h (k, cell) (mapGet_some_mem hm) (List.mem_filter.mp hg).1
      · exact h c hc'
  · exact h

/-- The function `removeEntity` preserves absence from the grid, absence from the map, and
key-consistency of the map. -/
theorem removeEntity_preserves (g : ℕ) (s : Tracker) (gid : ℕ) :
    (NotInGrid g s → NotInGrid g (removeEntity s gid).2) ∧
    (mapGet g s.entities = none → mapGet g ((removeEntity s gid).2).entities = none) ∧
    ((∀ p ∈ s.entities, p.2.gameId = p.1) →
      ∀ p ∈ ((removeEntity s gid).2).entities, p.2.gameId = p.1) := by
  refine ⟨?_, ?_, ?_⟩
  · intro h
    unfold removeEntity
    cases hm : mapGet gid s.entities with
    | none => exact h
    | some e =>
      simp only
      exact notInGrid_removeFromSpatialIndex g s gid (getGridKey s.gridSize e.position) h
  · intro h
    rw [removeEntity_snd_entities]
    exact mapGet_filter_none g s.entities _ h
  · intro h p hp
    rw [removeEntity_snd_entities] at hp
    exact h p (List.mem_filter.mp hp).1

/-- The function `performEmergencyCleanup` preserves the same three facts. -/
theorem performEmergencyCleanup_preserves (g : ℕ) (t : Tracker)
    (hgrid : NotInGrid g t) (habs : mapGet g t.entities = none)
    (hcons : ∀ p ∈ t.entities, p.2.gameId = p.1) :
    NotInGrid g (performEmergencyCleanup t) ∧
    mapGet g (performEmergencyCleanup t).entities = none ∧
    (∀ p ∈ (performEmergencyCleanup t).entities, p.2.gameId = p.1) := by
  unfold performEmergencyCleanup
  have h := foldl_preserves
    (fun s => NotInGrid g s ∧ mapGet g s.entities = none ∧
      ∀ p ∈ s.entities, p.2.gameId = p.1)
    (fun s gid => (removeEntity s gid).2)
    ((sortStableBy (fun a b => a.2.lastUpdate < b.2.lastUpdate) t.entities).take
      (t.maxEntities / 10) |>.map Prod.fst)
    t
    (by
      intro s gid hs
      exact ⟨(removeEntity_preserves g s gid).1 hs.1,
        (removeEntity_preserves g s gid).2.1 hs.2.1,
        (removeEntity_preserves g s gid).2.2 hs.2.2⟩)
    ⟨hgrid, habs, hcons⟩
  exact h

/-- A grid key every component of which is numeric — the only kind of key the
candidate scan of `getSpatialCandidates` ever looks up (`NaN` components only
arise from malformed positions and are never scanned). -/
def numericKey (k : GridKey) : Prop :=
  k.gx.isSome = true ∧ k.gy.isSome = true ∧ k.gz.isSome = true

/-- Every spatial candidate is registered in some grid cell with a fully
numeric key. -/
theorem mem_getSpatialCandidates (t : Tracker) (c : Pos) (r : ℚ) :
    ∀ gid ∈ getSpatialCandidates t c r,
      ∃ q ∈ t.spatialGrid, numericKey q.1 ∧ gid ∈ q.2 := by
  unfold getSpatialCandidates
  refine foldl_preserves
    (fun acc => ∀ gid ∈ acc, ∃ q ∈ t.spatialGrid, numericKey q.1 ∧ gid ∈ q.2) _ _ _ ?_ ?_
  · intro b dx hb
    refine foldl_preserves
      (fun acc => ∀ gid ∈ acc, ∃ q ∈ t.spatialGrid, numericKey q.1 ∧ gid ∈ q.2) _ _ _ ?_ hb
    intro b' dy hb'
    refine foldl_preserves
      (fun acc => ∀ gid ∈ acc, ∃ q ∈ t.spatialGrid, numericKey q.1 ∧ gid ∈ q.2) _ _ _ ?_ hb'
    intro b'' dz hb''
    dsimp only
    split
    · rename_i cell hm
      refine foldl_preserves_mem
        (fun acc => ∀ gid ∈ acc, ∃ q ∈ t.spatialGrid, numericKey q.1 ∧ gid ∈ q.2) _ _ _ ?_ hb''
      intro b3 gid hgid hb3 x hx
      rcases mem_setAdd hx with rfl | hx'
      · exact ⟨_, mapGet_some_mem hm, ⟨rfl, rfl, rfl⟩, hgid⟩
      · exact hb3 x hx'
    · exact hb''
  · intro gid hg
    exact absurd hg (List.not_mem_nil gid)

/-- Every entity in the query body's output is registered in some grid cell
with a fully numeric key (key-consistency of the map links the candidate id
to the record's own id). -/
theorem mem_getEntitiesInRadiusFrom_grid (t : Tracker) (pp : Pos)
    (hcons : ∀ p ∈ t.entities, p.2.gameId = p.1) :
    ∀ e ∈ (getEntitiesInRadiusFrom t pp).1,
      ∃ q ∈ t.spatialGrid, numericKey q.1 ∧ e.gameId ∈ q.2 := by
  unfold getEntitiesInRadiusFrom
  simp only
  have hcand := mem_getSpatialCandidates t pp t.radarRadiusTeraUnits
  have h1 := foldl_preserves_mem
    (fun (acc : List Entity × Tracker) =>
      (∀ e ∈ acc.1, ∃ q ∈ t.spatialGrid, numericKey q.1 ∧ e.gameId ∈ q.2) ∧
      acc.2.entities = t.entities)
    (radiusFilterStep pp)
    (getSpatialCandidates t pp t.radarRadiusTeraUnits) ([], t)
    (by
      intro b a ha hb
      unfold radiusFilterStep
      split
      · exact hb
      · rename_i e heq
        rw [hb.2] at heq
        have hgid : e.gameId = a := hcons (a, e) (mapGet_some_mem heq)
        have hframe := isEntityInRadius_frame b.2 e pp b.2.radarRadiusTeraUnits
        split
        · rename_i t' hm
          rw [hm] at hframe
          refine ⟨?_, hframe.1.trans hb.2⟩
          intro x hx
          rcases List.mem_append.mp hx with hx' | hx'
          · exact hb.1 x hx'
          · rw [List.mem_singleton.mp hx', hgid]
            exact hcand a ha
        · rename_i t' hm
          rw [hm] at hframe
          exact ⟨hb.1, hframe.1.trans hb.2⟩)
    ⟨fun e he => absurd he (List.not_mem_nil e), rfl⟩
  split
  · exact h1.1
  have h2 := foldl_preserves_mem
    (fun (acc : List (Option ℚ × Entity) × Tracker) =>
      ∀ q ∈ acc.1, ∃ c ∈ t.spatialGrid, numericKey c.1 ∧ q.2.gameId ∈ c.2)
    (distKeyStep pp)
    ((getSpatialCandidates t pp t.radarRadiusTeraUnits).foldl
      (radiusFilterStep pp) ([], t)).1
    ([], ((getSpatialCandidates t pp t.radarRadiusTeraUnits).foldl
      (radiusFilterStep pp) ([], t)).2)
    (by
      intro b a ha hb
      unfold distKeyStep
      split
      rename_i d t' hm
      intro q hq
      rcases List.mem_append.mp hq with hq' | hq'
      · exact hb q hq'
      · rw [List.mem_singleton.mp hq']
        exact h1.1 a ha)
    (fun q hq => absurd hq (List.not_mem_nil q))
  intro e he
  rcases List.mem_map.mp he with ⟨q, hq, rfl⟩
  exact h2 q (mem_sortStableBy.mp hq)

/-- Wrapper of `mem_getEntitiesInRadiusFrom_grid` for the public query. -/
theorem mem_getEntitiesInRadius_grid (t : Tracker)
    (hcons : ∀ p ∈ t.entities, p.2.gameId = p.1) :
    ∀ e ∈ (getEntitiesInRadius t).1,
      ∃ q ∈ t.spatialGrid, numericKey q.1 ∧ e.gameId ∈ q.2 := by
  unfold getEntitiesInRadius
  cases hp : t.playerPosition with
  | none =>
    intro e he
    exact absurd he (List.not_mem_nil e)
  | some pp =>
    simp only
    exact mem_getEntitiesInRadiusFrom_grid _ pp hcons

/-- Property: `g` occupies no grid cell whose key is fully numeric — the only
cells `getSpatialCandidates` ever scans.  Weaker than `NotInGrid`: a malformed
position update may register an id under a `NaN` key, which is harmless for
queries because the candidate scan only looks up fully numeric keys. -/
def NotInScannedGrid (g : ℕ) (t : Tracker) : Prop :=
  ∀ c ∈ t.spatialGrid, numericKey c.1 → g ∉ c.2

/-- Predicate over a raw packet position: present with all three components
numeric.  Exactly these positions produce a fully numeric grid key and hence
a spatial-index entry the candidate scan can see. -/
def fullyNumeric : Option RawPos → Prop
  | some rp => rp.x.isSome = true ∧ rp.y.isSome = true ∧ rp.z.isSome = true
  | none => False

/-- A raw position whose grid key is fully numeric is itself fully numeric. -/
theorem numericKey_getGridKeyRaw (gs : ℚ) (rp : RawPos)
    (h : numericKey (getGridKeyRaw gs rp)) : fullyNumeric (some rp) := by
  obtain ⟨h1, h2, h3⟩ := h
  refine ⟨?_, ?_, ?_⟩
  · cases hx : rp.x with
    | none => simp [getGridKeyRaw, hx] at h1
    | some v => rfl
  · cases hy : rp.y with
    | none => simp [getGridKeyRaw, hy] at h2
    | some v => rfl
  · cases hz : rp.z with
    | none => simp [getGridKeyRaw, hz] at h3
    | some v => rfl

/-- Members of cells after `addToSpatialIndex`: the added pair, or a member of
an original cell under the same key. -/
theorem addToSpatialIndex_mem (t : Tracker) (gid : ℕ) (k : GridKey) :
    ∀ c ∈ (addToSpatialIndex t gid k).spatialGrid, ∀ x ∈ c.2,
      (c.1 = k ∧ x = gid) ∨ ∃ c0 ∈ t.spatialGrid, c0.1 = c.1 ∧ x ∈ c0.2 := by
  unfold addToSpatialIndex
  intro c hc x hx
  rcases mem_mapSet hc with rfl | hc'
  · rcases mem_setAdd hx with rfl | hx'
    · exact Or.inl ⟨rfl, rfl⟩
    · cases hm : mapGet k t.spatialGrid with
      | none => rw [hm] at hx'; exact absurd hx' (List.not_mem_nil x)
      | some cell =>
        rw [hm] at hx'
        exact Or.inr ⟨(k, cell), mapGet_some_mem hm, rfl, hx'⟩
  · exact Or.inr ⟨c, hc', rfl, hx⟩

/-- Members of cells after `removeFromSpatialIndex` come from an original cell
under the same key. -/
theorem removeFromSpatialIndex_mem (t : Tracker) (gid : ℕ) (k : GridKey) :
    ∀ c ∈ (removeFromSpatialIndex t gid k).spatialGrid, ∀ x ∈ c.2,
      ∃ c0 ∈ t.spatialGrid, c0.1 = c.1 ∧ x ∈ c0.2 := by
  unfold removeFromSpatialIndex
  split
  · rename_i cell hm
    dsimp only
    split
    · intro c hc x hx
      exact ⟨c, (List.mem_filter.mp hc).1, rfl, hx⟩
    · intro c hc x hx
      rcases mem_mapSet hc with rfl | hc'
      · exact ⟨(k, cell), mapGet_some_mem hm, rfl, (List.mem_filter.mp hx).1⟩
      · exact ⟨c, hc', rfl, hx⟩
  · intro c hc x hx
    exact ⟨c, hc, rfl, hx⟩

/-- The function `removeFromSpatialIndex` preserves absence from all scanned
cells. -/
theorem notInScanned_removeFromSpatialIndex (g : ℕ) (t : Tracker) (gid : ℕ)
    (k : GridKey) (h : NotInScannedGrid g t) :
    NotInScannedGrid g (removeFromSpatialIndex t gid k) := by
  intro c hc hnum hg
  obtain ⟨c0, hc0, hkey, hx⟩ := removeFromSpatialIndex_mem t gid k c hc g hg
  exact h c0 hc0 (hkey ▸ hnum) hx

/-- The function `addToSpatialIndex` preserves absence from all scanned cells
whenever the added id differs from `g` or the key is not fully numeric. -/
theorem notInScanned_addToSpatialIndex (g : ℕ) (t : Tracker) (gid : ℕ)
    (k : GridKey) (hok : gid ≠ g ∨ ¬ numericKey k) (h : NotInScannedGrid g t) :
    NotInScannedGrid g (addToSpatialIndex t gid k) := by
  intro c hc hnum hg
  rcases addToSpatialIndex_mem t gid k c hc g hg with ⟨hck, hgid⟩ | ⟨c0, hc0, hkey, hx⟩
  · rcases hok with hok | hok
    · exact hok hgid.symm
    · exact hok (hck ▸ hnum)
  · exact h c0 hc0 (hkey ▸ hnum) hx

/-- The function `updateSpatialIndex` preserves absence from all scanned cells
whenever the relocated id differs from `g` or the new raw position is not
fully numeric. -/
theorem notInScanned_updateSpatialIndex (g : ℕ) (t : Tracker) (gid : ℕ)
    (old : Option Pos) (new : Option RawPos)
    (hok : gid ≠ g ∨ ¬ fullyNumeric new) (h : NotInScannedGrid g t) :
    NotInScannedGrid g (updateSpatialIndex t gid old new) := by
  unfold updateSpatialIndex
  have h2 : NotInScannedGrid g (match old with
      | some p => removeFromSpatialIndex t gid (getGridKey t.gridSize p)
      | none => t) := by
    cases old with
    | some p => exact notInScanned_removeFromSpatialIndex g t gid _ h
    | none => exact h
  cases new with
  | some rp =>
    refine notInScanned_addToSpatialIndex g _ gid _ ?_ h2
    rcases hok with hok | hok
    · exact Or.inl hok
    · exact Or.inr (fun hnum => hok (numericKey_getGridKeyRaw _ _ hnum))
  | none => exact h2

/-- The function `updateSpatialIndex` never touches the entity map. -/
theorem updateSpatialIndex_entities (t : Tracker) (gid : ℕ) (old : Option Pos)
    (new : Option RawPos) :
    (updateSpatialIndex t gid old new).entities = t.entities := by
  unfold updateSpatialIndex
  have h2 : (match old with
      | some p => removeFromSpatialIndex t gid (getGridKey t.gridSize p)
      | none => t).entities = t.entities := by
    cases old with
    | some p => exact (removeFromSpatialIndex_frame t gid _).1
    | none => rfl
  cases new with
  | some rp => exact h2
  | none => exact h2

/-- The function `setPlayerPosition` never touches the entity map or the
spatial grid: it only moves the observer and clears the distance cache. -/
theorem setPlayerPosition_frame (t : Tracker) (p : Option RawPos) :
    (setPlayerPosition t p).entities = t.entities ∧
    (setPlayerPosition t p).spatialGrid = t.spatialGrid := by
  unfold setPlayerPosition
  cases p with
  | none => exact ⟨rfl, rfl⟩
  | some rp =>
    cases rp with
    | mk x y z =>
      cases x with
      | none => exact ⟨rfl, rfl⟩
      | some xv =>
        cases y with
        | none => exact ⟨rfl, rfl⟩
        | some yv =>
          cases z with
          | none => exact ⟨rfl, rfl⟩
          | some zv =>
            dsimp only
            split
            · exact ⟨rfl, rfl⟩
            · exact ⟨rfl, rfl⟩

/-- The tracker returned by `getStats` is exactly the tracker returned by the
query it runs. -/
theorem getStats_snd (t : Tracker) : (getStats t).2 = (getEntitiesInRadius t).2 := by
  unfold getStats
  cases hq : getEntitiesInRadius t with
  | mk es t2 => rfl

/-- The field `gameId` survives `Entity.updatePosition`. -/
theorem Entity.updatePosition_gameId (e : Entity) (p : Option RawPos) (now : ℕ) :
    (e.updatePosition p now).gameId = e.gameId := by
  cases p with
  | none => rfl
  | some rp =>
    cases rp with
    | mk x y z => cases x <;> cases y <;> cases z <;> rfl

/-- The field `gameId` survives `Entity.updateHealth`. -/
theorem Entity.updateHealth_gameId (e : Entity) (hp maxHp : Option ℚ) (now : ℕ) :
    (e.updateHealth hp maxHp now).gameId = e.gameId := by
  cases hp <;> cases maxHp <;> rfl

/-- Key-consistency survives `mapSet` with a matching binding. -/
theorem cons_mapSet (gid : ℕ) (e : Entity) (he : e.gameId = gid)
    (l : List (ℕ × Entity)) (h : ∀ p ∈ l, p.2.gameId = p.1) :
    ∀ p ∈ mapSet gid e l, p.2.gameId = p.1 := by
  intro p hp
  rcases mem_mapSet hp with rfl | hp'
  · exact he
  · exact h p hp'

/-- The function `removeEntity` preserves absence from all scanned cells. -/
theorem removeEntity_scan (g : ℕ) (s : Tracker) (gid : ℕ)
    (h : NotInScannedGrid g s) : NotInScannedGrid g (removeEntity s gid).2 := by
  unfold removeEntity
  cases hm : mapGet gid s.entities with
  | none => exact h
  | some e =>
    simp only
    exact notInScanned_removeFromSpatialIndex g s gid (getGridKey s.gridSize e.position) h

/-- The function `removeEntity` preserves key-consistency of the map. -/
theorem removeEntity_cons (s : Tracker) (gid : ℕ)
    (h : ∀ p ∈ s.entities, p.2.gameId = p.1) :
    ∀ p ∈ ((removeEntity s gid).2).entities, p.2.gameId = p.1 := by
  intro p hp
  rw [removeEntity_snd_entities] at hp
  exact h p (List.mem_filter.mp hp).1

/-- The function `performEmergencyCleanup` preserves absence from all scanned
cells. -/
theorem performEmergencyCleanup_scan (g : ℕ) (t : Tracker)
    (h : NotInScannedGrid g t) : NotInScannedGrid g (performEmergencyCleanup t) := by
  unfold performEmergencyCleanup
  have hf := foldl_preserves (NotInScannedGrid g) (fun s gid => (removeEntity s gid).2)
    ((sortStableBy (fun a b => a.2.lastUpdate < b.2.lastUpdate) t.entities).take
      (t.maxEntities / 10) |>.map Prod.fst) t
    (fun s gid hs => removeEntity_scan g s gid hs) h
  exact hf

/-- The function `performEmergencyCleanup` preserves key-consistency of the
map. -/
theorem performEmergencyCleanup_cons (t : Tracker)
    (h : ∀ p ∈ t.entities, p.2.gameId = p.1) :
    ∀ p ∈ (performEmergencyCleanup t).entities, p.2.gameId = p.1 := by
  unfold performEmergencyCleanup
  have hf := foldl_preserves (fun s => ∀ p ∈ s.entities, p.2.gameId = p.1)
    (fun s gid => (removeEntity s gid).2)
    ((sortStableBy (fun a b => a.2.lastUpdate < b.2.lastUpdate) t.entities).take
      (t.maxEntities / 10) |>.map Prod.fst) t
    (fun s gid hs => removeEntity_cons s gid hs) h
  exact hf

/-- The function `addEntity` preserves key-consistency of the map. -/
theorem addEntity_cons (t : Tracker) (d : EntityData) (now : ℕ)
    (h : ∀ p ∈ t.entities, p.2.gameId = p.1) :
    ∀ p ∈ ((addEntity t d now).2).entities, p.2.gameId = p.1 := by
  unfold addEntity
  cases hg : d.gameId with
  | none => exact h
  | some gid =>
    simp only
    have h1 : ∀ p ∈ (if t.entities.length ≥ t.maxEntities ∧
        (mapGet gid t.entities).isNone = true then performEmergencyCleanup t
        else t).entities, p.2.gameId = p.1 := by
      split
      · exact performEmergencyCleanup_cons t h
      · exact h
    cases hm : mapGet gid (if t.entities.length ≥ t.maxEntities ∧
        (mapGet gid t.entities).isNone = true then performEmergencyCleanup t
        else t).entities with
    | some e0 =>
      have hgid0 : e0.gameId = gid := h1 (gid, e0) (mapGet_some_mem hm)
      cases hpos : d.position with
      | some rp =>
        refine cons_mapSet gid _ ?_ _ ?_
        · split <;> split <;> split <;> split <;>
            (try simp only [Entity.updateHealth_gameId, Entity.updatePosition_gameId]) <;>
            exact hgid0
        · rw [updateSpatialIndex_entities]
          exact h1
      | none =>
        refine cons_mapSet gid _ ?_ _ h1
        split <;> split <;> split <;> split <;>
          (try simp only [Entity.updateHealth_gameId, Entity.updatePosition_gameId]) <;>
          exact hgid0
    | none =>
      cases hpos : d.position with
      | some rp =>
        refine cons_mapSet gid _ ?_ _ h1
        rw [Entity.updatePosition_gameId]
        rfl
      | none =>
        exact cons_mapSet gid _ rfl _ h1

/-- The function `addEntity` preserves absence from all scanned cells unless
it registers a fully numeric position for `g` itself. -/
theorem addEntity_scan (g : ℕ) (t : Tracker) (d : EntityData) (now : ℕ)
    (hreg : ¬ (d.gameId = some g ∧ fullyNumeric d.position))
    (h : NotInScannedGrid g t) : NotInScannedGrid g ((addEntity t d now).2) := by
  unfold addEntity
  cases hg : d.gameId with
  | none => exact h
  | some gid =>
    simp only
    have h1 : NotInScannedGrid g (if t.entities.length ≥ t.maxEntities ∧
        (mapGet gid t.entities).isNone = true then performEmergencyCleanup t
        else t) := by
      split
      · exact performEmergencyCleanup_scan g t h
      · exact h
    have hok : ∀ rp, d.position = some rp → gid ≠ g ∨ ¬ fullyNumeric (some rp) := by
      intro rp hrp
      by_cases hgg : gid = g
      · refine Or.inr (fun hf => hreg ⟨?_, ?_⟩)
        · rw [hg, hgg]
        · rw [hrp]; exact hf
      · exact Or.inl hgg
    cases hm : mapGet gid (if t.entities.length ≥ t.maxEntities ∧
        (mapGet gid t.entities).isNone = true then performEmergencyCleanup t
        else t).entities with
    | some e0 =>
      cases hpos : d.position with
      | some rp =>
        exact notInScanned_updateSpatialIndex g _ gid (some e0.position) (some rp)
          (hok rp hpos) h1
      | none => exact h1
    | none =>
      cases hpos : d.position with
      | some rp =>
        refine notInScanned_addToSpatialIndex g _ gid _ ?_ h1
        rcases hok rp hpos with hk | hk
        · exact Or.inl hk
        · exact Or.inr (fun hnum => hk (numericKey_getGridKeyRaw _ _ hnum))
      | none => exact h1

/-- The entity map after `updateEntityPosition`: the record is rewritten (with
the position validated by `Entity.updatePosition`) when the id is tracked,
untouched otherwise. -/
theorem updateEntityPosition_snd_entities (t : Tracker) (gid : ℕ) (p : Option RawPos)
    (now : ℕ) :
    ((updateEntityPosition t gid p now).2).entities =
      match mapGet gid t.entities with
      | some e => mapSet gid (e.updatePosition p now) t.entities
      | none => t.entities := by
  unfold updateEntityPosition
  cases hm : mapGet gid t.entities with
  | none => rfl
  | some e =>
    simp only
    exact updateSpatialIndex_entities _ gid _ p

/-- The function `updateEntityPosition` preserves key-consistency of the
map. -/
theorem updateEntityPosition_cons (t : Tracker) (gid : ℕ) (p : Option RawPos)
    (now : ℕ) (h : ∀ q ∈ t.entities, q.2.gameId = q.1) :
    ∀ q ∈ ((updateEntityPosition t gid p now).2).entities, q.2.gameId = q.1 := by
  intro q hq
  rw [updateEntityPosition_snd_entities] at hq
  cases hm : mapGet gid t.entities with
  | none =>
    rw [hm] at hq
    exact h q hq
  | some e =>
    rw [hm] at hq
    rcases mem_mapSet hq with rfl | hq'
    · exact (Entity.updatePosition_gameId e p now).trans
        (h (gid, e) (mapGet_some_mem hm))
    · exact h q hq'

/-- The function `updateEntityPosition` preserves absence from all scanned
cells unless it registers a fully numeric position for `g` itself. -/
theorem updateEntityPosition_scan (g : ℕ) (t : Tracker) (gid : ℕ)
    (p : Option RawPos) (now : ℕ) (hreg : ¬ (gid = g ∧ fullyNumeric p))
    (h : NotInScannedGrid g t) :
    NotInScannedGrid g (updateEntityPosition t gid p now).2 := by
  unfold updateEntityPosition
  cases hm : mapGet gid t.entities with
  | none => exact h
  | some e =>
    simp only
    have hok : gid ≠ g ∨ ¬ fullyNumeric p := by
      by_cases hgg : gid = g
      · exact Or.inr (fun hf => hreg ⟨hgg, hf⟩)
      · exact Or.inl hgg
    refine notInScanned_updateSpatialIndex g _ gid (some e.position) p hok ?_
    intro c hc hnum
    exact h c hc hnum

/-- Operation alphabet of the tracker: every state-changing entry point of the
embedding (entity ingestion, removal, position update, observer movement,
radius query, statistics, emergency cleanup, wholesale cache clearing). -/
inductive Op where
  | add (d : EntityData) (now : ℕ)
  | remove (gid : ℕ)
  | updatePos (gid : ℕ) (p : Option RawPos) (now : ℕ)
  | setPlayer (p : Option RawPos)
  | query
  | stats
  | cleanup
  | clearCache

/-- Effect of one operation on the tracker state. -/
def applyOp (t : Tracker) : Op → Tracker
  | Op.add d now => (addEntity t d now).2
  | Op.remove gid => (removeEntity t gid).2
  | Op.updatePos gid p now => (updateEntityPosition t gid p now).2
  | Op.setPlayer p => setPlayerPosition t p
  | Op.query => (getEntitiesInRadius t).2
  | Op.stats => (getStats t).2
  | Op.cleanup => performEmergencyCleanup t
  | Op.clearCache => clearDistanceCache t

/-- Run a whole operation sequence. -/
def runOps (t : Tracker) (ops : List Op) : Tracker :=
  ops.foldl applyOp t

/-- Operations that can register a scannable spatial-index entry for `g`: an
`addEntity` naming `g` with a fully numeric position, or an
`updateEntityPosition` of `g` with a fully numeric position.  Everything else
(including malformed position updates of `g`, observer movement and queries)
cannot put `g` into a scanned grid cell. -/
def registersPos (g : ℕ) : Op → Prop
  | Op.add d _ => d.gameId = some g ∧ fullyNumeric d.position
  | Op.updatePos gid p _ => gid = g ∧ fullyNumeric p
  | _ => False

/-- Invariant carried along a trace: `g` sits in no scanned grid cell and the
entity map is key-consistent. -/
def TraceInv (g : ℕ) (t : Tracker) : Prop :=
  NotInScannedGrid g t ∧ ∀ p ∈ t.entities, p.2.gameId = p.1

/-- Absence from scanned cells transfers along an equality of grids. -/
theorem notInScanned_congr {g : ℕ} {t1 t2 : Tracker}
    (hgrid : t2.spatialGrid = t1.spatialGrid) (h : NotInScannedGrid g t1) :
    NotInScannedGrid g t2 := by
  intro c hc
  exact h c (hgrid ▸ hc)

/-- Key-consistency transfers along an equality of entity maps. -/
theorem cons_congr {t1 t2 : Tracker} (hent : t2.entities = t1.entities)
    (h : ∀ p ∈ t1.entities, p.2.gameId = p.1) :
    ∀ p ∈ t2.entities, p.2.gameId = p.1 := by
  intro p hp
  exact h p (hent ▸ hp)

/-- Every operation that does not register a fully numeric position for `g`
preserves the trace invariant. -/
theorem traceInv_applyOp (g : ℕ) (t : Tracker) (op : Op)
    (hreg : ¬ registersPos g op) (h : TraceInv g t) : TraceInv g (applyOp t op) := by
  cases op with
  | add d now => exact ⟨addEntity_scan g t d now hreg h.1, addEntity_cons t d now h.2⟩
  | remove gid => exact ⟨removeEntity_scan g t gid h.1, removeEntity_cons t gid h.2⟩
  | updatePos gid p now =>
    exact ⟨updateEntityPosition_scan g t gid p now hreg h.1,
      updateEntityPosition_cons t gid p now h.2⟩
  | setPlayer p =>
    have hf := setPlayerPosition_frame t p
    exact ⟨notInScanned_congr hf.2 h.1, cons_congr hf.1 h.2⟩
  | query =>
    have hf := getEntitiesInRadius_frame t
    exact ⟨notInScanned_congr hf.2.1 h.1, cons_congr hf.1 h.2⟩
  | stats =>
    have hf := getEntitiesInRadius_frame t
    show TraceInv g (getStats t).2
    rw [getStats_snd]
    exact ⟨notInScanned_congr hf.2.1 h.1, cons_congr hf.1 h.2⟩
  | cleanup => exact ⟨performEmergencyCleanup_scan g t h.1, performEmergencyCleanup_cons t h.2⟩
  | clearCache => exact ⟨h.1, h.2⟩

/-- The trace invariant is preserved along any operation sequence none of
whose elements registers a fully numeric position for `g`. -/
theorem runOps_traceInv (g : ℕ) (t : Tracker) (ops : List Op)
    (hops : ∀ op ∈ ops, ¬ registersPos g op) (h : TraceInv g t) :
    TraceInv g (runOps t ops) := by
  unfold runOps
  refine foldl_preserves_mem (TraceInv g) applyOp ops t ?_ h
  intro b op hop hb
  exact traceInv_applyOp g b op (hops op hop) hb

set_option maxHeartbeats 1000000 in
/-- C10: an entity created by `addEntity` from data carrying no position field
is stored with the concrete position `(0,0,0)` (not absent) and registered in
no spatial-grid cell; and after any subsequent operation sequence — entity
ingestion, removals, position updates, observer movement, queries, statistics,
cleanups, cache clears — that never registers a fully numeric position for the
id, no `getEntitiesInRadius` call returns it (the query only ever surfaces ids
registered in a scanned grid cell).  Hypotheses are the reachable-state facts:
the id is fresh (new-entity path of the claim), it occupies no grid cell, and
the map is key-consistent. -/
theorem no_position_entity_stored_at_origin_never_returned
    (t : Tracker) (d : EntityData) (g : ℕ) (now : ℕ)
    (hg : d.gameId = some g) (hpos : d.position = none)
    (habs : mapGet g t.entities = none)
    (hgrid : NotInGrid g t)
    (hcons : ∀ p ∈ t.entities, p.2.gameId = p.1) :
    (mapGet g ((addEntity t d now).2).entities).map Entity.position = some ⟨0, 0, 0⟩ ∧
    NotInGrid g (addEntity t d now).2 ∧
    ∀ ops : List Op, (∀ op ∈ ops, ¬ registersPos g op) →
      ∀ e ∈ (getEntitiesInRadius (runOps (addEntity t d now).2 ops)).1, e.gameId ≠ g := by
  have hpres := performEmergencyCleanup_preserves g t hgrid habs hcons
  have hafter : mapGet g (if t.entities.length ≥ t.maxEntities ∧
      (mapGet g t.entities).isNone = true then performEmergencyCleanup t
      else t).entities = none := by
    split
    · exact hpres.2.1
    · exact habs
  have hgrid1 : NotInGrid g (if t.entities.length ≥ t.maxEntities ∧
      (mapGet g t.entities).isNone = true then performEmergencyCleanup t else t) := by
    split
    · exact hpres.1
    · exact hgrid
  have hgridAdd : NotInGrid g (addEntity t d now).2 := by
    simp only [addEntity, hg]
    rw [hafter, hpos]
    exact hgrid1
  refine ⟨?_, hgridAdd, ?_⟩
  · simp only [addEntity, hg]
    rw [hafter, hpos]
    simp only
    simp only [invalidateDistanceCache]
    rw [mapGet_mapSet_self]
    rfl
  · intro ops hops e he hne
    have hinv0 : TraceInv g (addEntity t d now).2 :=
      ⟨fun c hc _ => hgridAdd c hc, addEntity_cons t d now hcons⟩
    have hinv := runOps_traceInv g ((addEntity t d now).2) ops hops hinv0
    obtain ⟨q, hq, hnum, hmem⟩ := mem_getEntitiesInRadius_grid _ hinv.2 e he
    exact hinv.1 q hq hnum (hne ▸ hmem)

/-- C10 witness: adding id 5 without a position to the concrete store
`stStats` (observer at the origin, an entity at `(100,0,0)` tracked), then
running the operation sequence "observer moves to the origin; query" — neither
of which registers a position for id 5 — still returns no entity with id 5. -/
theorem no_position_entity_stored_at_origin_never_returned_witness :
    (mapGet 5 ((addEntity stStats { gameId := some 5 } 2).2).entities).map
      Entity.position = some ⟨0, 0, 0⟩ ∧
    NotInGrid 5 (addEntity stStats { gameId := some 5 } 2).2 ∧
    ∀ e ∈ (getEntitiesInRadius (runOps (addEntity stStats { gameId := some 5 } 2).2
        [Op.setPlayer (some ⟨some 0, some 0, some 0⟩), Op.query])).1,
      e.gameId ≠ 5 := by
  have h := no_position_entity_stored_at_origin_never_returned stStats
    { gameId := some 5 } 5 2 rfl rfl (by with_unfolding_all decide)
    (show ∀ c ∈ stStats.spatialGrid, (5 : ℕ) ∉ c.2 by with_unfolding_all decide)
    (by with_unfolding_all decide)
  refine ⟨h.1, h.2.1,
    h.2.2 [Op.setPlayer (some ⟨some 0, some 0, some 0⟩), Op.query] ?_⟩
  intro op hop
  rcases List.mem_cons.mp hop with rfl | hop'
  · exact fun hcon => hcon
  · rcases List.mem_cons.mp hop' with rfl | hop''
    · exact fun hcon => hcon
    · exact absurd hop'' (List.not_mem_nil op)

/-! ## Emergency eviction: `⌊N/10⌋` oldest entities are removed (C6, amended) -/

/-- Setting a fresh key appends the binding. -/
theorem mapSet_of_get_none {K V : Type} [DecidableEq K] (k : K) (v : V)
    (l : List (K × V)) (h : mapGet k l = none) : mapSet k v l = l ++ [(k, v)] := by
  induction l with
  | nil => rfl
  | cons p rest ih =>
    have hp : ¬ p.1 = k := by
      intro hk
      simp [mapGet, hk] at h
    simp only [mapSet, hp, if_neg, if_false, List.cons_append, List.cons.injEq, true_and]
    apply ih
    simpa [mapGet, hp] using h

/-- Stable insertion permutes a cons. -/
theorem insertStableBy_perm {α : Type} (lt : α → α → Bool) (a : α) (l : List α) :
    (insertStableBy lt a l).Perm (a :: l) := by
  induction l with
  | nil => exact List.Perm.refl _
  | cons b bs ih =>
    unfold insertStableBy
    by_cases hb : lt b a = true
    · rw [if_pos hb]
      exact (ih.cons b).trans (List.Perm.swap a b bs)
    · rw [if_neg hb]

/-- The stable sort is a permutation. -/
theorem sortStableBy_perm {α : Type} (lt : α → α → Bool) (l : List α) :
    (sortStableBy lt l).Perm l := by
  induction l with
  | nil => exact List.Perm.refl _
  | cons a as ih =>
    exact (insertStableBy_perm lt a (sortStableBy lt as)).trans (ih.cons a)

/-- Folding `removeEntity` over a list of ids filters the entity map down to
the bindings whose key is not among them. -/
theorem foldl_removeEntity_entities (l : List ℕ) (s : Tracker) :
    ((l.foldl (fun s gid => (removeEntity s gid).2) s).entities)
      = s.entities.filter (fun p => !(p.1 ∈ l : Bool)) := by
  induction l generalizing s with
  | nil =>
    simp only [List.foldl_nil]
    rw [List.filter_eq_self.mpr]
    intro p _
    simp
  | cons gid rest ih =>
    simp only [List.foldl_cons]
    rw [ih ((removeEntity s gid).2), removeEntity_snd_entities]
    unfold mapDelete
    rw [List.filter_filter]
    apply List.filter_congr
    intro p _
    by_cases h1 : p.1 = gid <;> by_cases h2 : p.1 ∈ rest <;>
      simp [List.mem_cons, h1, h2]

/-- The ids the emergency cleanup evicts: the first `⌊maxEntities/10⌋`
entries of the stable sort by `lastUpdate`. -/
def victimIds (t : Tracker) : List ℕ :=
  (((sortStableBy (fun a b => a.2.lastUpdate < b.2.lastUpdate) t.entities).take
    (t.maxEntities / 10)).map Prod.fst)

/-- The emergency cleanup keeps exactly the bindings that are not victims. -/
theorem performEmergencyCleanup_entities (t : Tracker) :
    (performEmergencyCleanup t).entities
      = t.entities.filter (fun p => !(p.1 ∈ victimIds t : Bool)) := by
  unfold performEmergencyCleanup victimIds
  exact foldl_removeEntity_entities _ t

/-- In a list with `Nodup` keys, equal keys mean equal bindings. -/
theorem nodup_key_eq {K V : Type} [DecidableEq K] {l : List (K × V)}
    (h : (l.map Prod.fst).Nodup) {a b : K × V} (ha : a ∈ l) (hb : b ∈ l)
    (hk : a.1 = b.1) : a = b := by
  induction l with
  | nil => exact absurd ha (List.not_mem_nil a)
  | cons p rest ih =>
    rw [List.map_cons, List.nodup_cons] at h
    rcases List.mem_cons.mp ha with rfl | ha'
    · rcases List.mem_cons.mp hb with rfl | hb'
      · rfl
      · exact absurd (hk ▸ List.mem_map_of_mem Prod.fst hb') h.1
    · rcases List.mem_cons.mp hb with rfl | hb'
      · exact absurd (hk ▸ List.mem_map_of_mem Prod.fst ha') h.1
      · exact ih h.2 ha' hb'

set_option maxHeartbeats 1000000 in
/-- An insert of a fresh id into a store at (or above) its ceiling first runs
the emergency cleanup and then appends the new binding. -/
theorem addEntity_over_ceiling_entities (t : Tracker) (d : EntityData) (g now : ℕ)
    (hg : d.gameId = some g) (hfresh : mapGet g t.entities = none)
    (hlen : t.entities.length ≥ t.maxEntities) :
    ∃ e : Entity, ((addEntity t d now).2).entities
      = (performEmergencyCleanup t).entities ++ [(g, e)] := by
  have hfresh1 : mapGet g (performEmergencyCleanup t).entities = none := by
    rw [performEmergencyCleanup_entities]
    exact mapGet_filter_none g t.entities _ hfresh
  have hcond : t.entities.length ≥ t.maxEntities ∧
      (mapGet g t.entities).isNone = true := ⟨hlen, by rw [hfresh]; rfl⟩
  simp only [addEntity, hg]
  rw [if_pos hcond, hfresh1]
  cases hdp : d.position with
  | some rp =>
    simp only
    exact ⟨_, mapSet_of_get_none g _ (performEmergencyCleanup t).entities hfresh1⟩
  | none =>
    simp only
    exact ⟨_, mapSet_of_get_none g _ (performEmergencyCleanup t).entities hfresh1⟩

/-- The `lastUpdate` comparator is asymmetric. -/
theorem lastUpdateLt_asymm (a b : ℕ × Entity)
    (h : (a.2.lastUpdate < b.2.lastUpdate : Bool) = true) :
    (b.2.lastUpdate < a.2.lastUpdate : Bool) = false := by
  simp only [decide_eq_true_eq] at h
  simp only [decide_eq_false_iff_not]
  omega

/-- The `lastUpdate` comparator is negatively transitive. -/
theorem lastUpdateLt_neg_trans (a b c : ℕ × Entity)
    (h1 : (b.2.lastUpdate < a.2.lastUpdate : Bool) = false)
    (h2 : (c.2.lastUpdate < b.2.lastUpdate : Bool) = false) :
    (c.2.lastUpdate < a.2.lastUpdate : Bool) = false := by
  simp only [decide_eq_false_iff_not] at h1 h2 ⊢
  omega

set_option maxHeartbeats 1000000 in
/-- C6 (amended): when an insert of a fresh id finds the store at (or above)
its population ceiling `N = maxEntities`, the `⌊N/10⌋` least-recently-updated
entities are evicted before the insert, so the store ends up with
`len − ⌊N/10⌋ + 1` entities (for the code's ceiling 1000 and 1000 tracked
entities: 901, not `N`), and every evicted entity is no younger than every
retained pre-existing entity: the retained ones are the most recently
updated. -/
theorem eviction_evicts_tenth_oldest (t : Tracker) (d : EntityData) (g now : ℕ)
    (hg : d.gameId = some g)
    (hfresh : mapGet g t.entities = none)
    (hlen : t.entities.length ≥ t.maxEntities)
    (hnodup : (t.entities.map Prod.fst).Nodup) :
    ((addEntity t d now).2).entities.length
      = t.entities.length - t.maxEntities / 10 + 1 ∧
    ∀ p ∈ t.entities, p.1 ∉ ((addEntity t d now).2).entities.map Prod.fst →
      ∀ q ∈ t.entities, q.1 ∈ ((addEntity t d now).2).entities.map Prod.fst →
        p.2.lastUpdate ≤ q.2.lastUpdate := by
  obtain ⟨e, he⟩ := addEntity_over_ceiling_entities t d g now hg hfresh hlen
  have hperm := sortStableBy_perm
    (fun (a b : ℕ × Entity) => a.2.lastUpdate < b.2.lastUpdate) t.entities
  have hnodupS : ((sortStableBy
      (fun (a b : ℕ × Entity) => a.2.lastUpdate < b.2.lastUpdate)
      t.entities).map Prod.fst).Nodup := ((hperm.map Prod.fst).nodup_iff).mpr hnodup
  have hpairwise := sortStableBy_pairwise
    (fun (a b : ℕ × Entity) => a.2.lastUpdate < b.2.lastUpdate)
    lastUpdateLt_asymm lastUpdateLt_neg_trans t.entities
  -- name the sorted list, the eviction count, and the survivor filter
  set sorted := sortStableBy
    (fun (a b : ℕ × Entity) => a.2.lastUpdate < b.2.lastUpdate) t.entities with hsorted
  set n := t.maxEntities / 10 with hn
  have hvict : victimIds t = (sorted.take n).map Prod.fst := rfl
  -- the cleanup keeps exactly the non-victims, i.e. the drop of the sort
  have htake_none : (sorted.take n).filter
      (fun p => !(p.1 ∈ victimIds t : Bool)) = [] := by
    rw [List.filter_eq_nil_iff]
    intro p hp
    simp only [Bool.not_eq_true', Bool.not_eq_true, decide_eq_false_iff_not,
      Decidable.not_not]
    rw [hvict]
    exact List.mem_map_of_mem Prod.fst hp
  have hdisj : ∀ p ∈ sorted.drop n, p.1 ∉ victimIds t := by
    intro p hp hmem
    rw [hvict] at hmem
    rcases List.mem_map.mp hmem with ⟨p', hp', hk⟩
    have hnodupP : sorted.Nodup := (List.Nodup.of_map Prod.fst) hnodupS
    have := List.nodup_append.mp (by rw [List.take_append_drop n sorted]; exact hnodupP)
    have heqp : p' = p := nodup_key_eq hnodupS
      (List.take_subset n sorted hp') (List.drop_subset n sorted hp) hk
    exact this.2.2 (heqp ▸ hp') hp
  have hdrop_all : (sorted.drop n).filter
      (fun p => !(p.1 ∈ victimIds t : Bool)) = sorted.drop n := by
    rw [List.filter_eq_self]
    intro p hp
    simp only [Bool.not_eq_true', decide_eq_false_iff_not]
    exact hdisj p hp
  have hfilter_perm : (t.entities.filter (fun p => !(p.1 ∈ victimIds t : Bool))).Perm
      (sorted.drop n) := by
    have h1 := (hperm.symm).filter (fun p => !(p.1 ∈ victimIds t : Bool))
    have h2 : sorted.filter (fun p => !(p.1 ∈ victimIds t : Bool)) = sorted.drop n := by
      conv_lhs => rw [← List.take_append_drop n sorted]
      rw [List.filter_append, htake_none, hdrop_all, List.nil_append]
    rw [h2] at h1
    exact h1
  have hclean_len : (performEmergencyCleanup t).entities.length
      = t.entities.length - n := by
    rw [performEmergencyCleanup_entities, hfilter_perm.length_eq, List.length_drop,
      hperm.length_eq]
  constructor
  · rw [he, List.length_append, hclean_len, List.length_singleton]
  · intro p hp hpnot q hq hqmem
    -- p is a victim: it sits in the taken (oldest) prefix of the sort
    have hpvict : p.1 ∈ victimIds t := by
      by_contra hnv
      apply hpnot
      rw [he, List.map_append]
      refine List.mem_append.mpr (Or.inl ?_)
      rw [performEmergencyCleanup_entities]
      refine List.mem_map_of_mem Prod.fst ?_
      rw [List.mem_filter]
      exact ⟨hp, by simpa using hnv⟩
    have hptake : p ∈ sorted.take n := by
      rw [hvict] at hpvict
      rcases List.mem_map.mp hpvict with ⟨p', hp', hk⟩
      have : p' = p := nodup_key_eq hnodupS (List.take_subset n sorted hp')
        (hperm.mem_iff.mpr hp) hk
      exact this ▸ hp'
    -- q is retained: it sits in the dropped (youngest) suffix of the sort
    have hqkeys : q.1 ∈ ((performEmergencyCleanup t).entities).map Prod.fst := by
      rw [he, List.map_append] at hqmem
      rcases List.mem_append.mp hqmem with h' | h'
      · exact h'
      · exfalso
        have hqg : q.1 = g := by simpa using h'
        exact (mapGet_eq_none_iff g t.entities).mp hfresh q hq hqg
    have hqdrop : q ∈ sorted.drop n := by
      rw [performEmergencyCleanup_entities] at hqkeys
      rcases List.mem_map.mp hqkeys with ⟨q', hq', hk⟩
      have hq'mem := (List.mem_filter.mp hq').1
      have : q' = q := nodup_key_eq hnodup hq'mem hq hk
      subst this
      have hnv : q'.1 ∉ victimIds t := by
        have := (List.mem_filter.mp hq').2
        simpa using this
      have hqsorted : q' ∈ sorted := hperm.mem_iff.mpr hq'mem
      rcases List.mem_append.mp
        (by rw [List.take_append_drop n sorted] at *; exact hqsorted :
          q' ∈ sorted.take n ++ sorted.drop n) with h' | h'
      · exact absurd (hvict ▸ List.mem_map_of_mem Prod.fst h') hnv
      · exact h'
    -- the sort is pairwise ordered by lastUpdate across the take/drop split
    have hsplit := List.pairwise_append.mp
      (by rw [List.take_append_drop n sorted]; exact hpairwise)
    have := hsplit.2.2 p hptake q hqdrop
    simpa using this

set_option maxRecDepth 100000 in
/-- C6 witness: the eviction theorem applied to the concrete ceiling-20 store
holding 20 entities, inserting the fresh id 21. -/
theorem eviction_evicts_tenth_oldest_witness :
    ((addEntity stCeil20 { gameId := some 21 } 21).2).entities.length
      = stCeil20.entities.length - stCeil20.maxEntities / 10 + 1 ∧
    ∀ p ∈ stCeil20.entities,
      p.1 ∉ ((addEntity stCeil20 { gameId := some 21 } 21).2).entities.map Prod.fst →
      ∀ q ∈ stCeil20.entities,
        q.1 ∈ ((addEntity stCeil20 { gameId := some 21 } 21).2).entities.map Prod.fst →
        p.2.lastUpdate ≤ q.2.lastUpdate :=
  eviction_evicts_tenth_oldest stCeil20 { gameId := some 21 } 21 21 rfl
    (by with_unfolding_all decide) (by with_unfolding_all decide)
    (by with_unfolding_all decide)

end Radar
